import Mathlib

/-!
# Verification of the ViMax `Script2VideoPipeline` scheduler

A shallow embedding of `src/pipelines/script2video_pipeline.py` (and of the
argument-validation prefix of `src/tools/video_generator_veo_google_api.py`).

Modelling conventions:
* The filesystem is an association list from logical paths (`FPath`) to
  structured artifacts (`Artifact`).  `os.path.exists` is a lookup;
  `json.load` + `model_validate` is a lookup followed by a constructor match
  (a mismatch models the Python parse exception).
* `asyncio` coroutines are embedded as state-passing computations
  `StepM α = PState → Option (List Act × α × PState)` that additionally
  record a trace of observable actions (generator calls, artifact saves,
  event waits, event sets).  `asyncio.gather` over a list of coroutines is
  modelled as running them to completion in creation order (one fixed
  cooperative schedule); an `Event.wait` on a signal that has not fired at
  that point in the schedule yields `none` (the schedule blocks there), as
  does any Python exception.
* External collaborators (chat model, image generator, video generator,
  frame extraction from a video) are an `Oracle` of pure functions; each
  invocation is additionally recorded in the trace as an `Act.call`.
-/

namespace ViMax

/-- Frame kind of a coordination signal / frame artifact: `first_frame` or
`last_frame`. -/
inductive FrameType
  | first
  | last
  deriving DecidableEq, Repr

/-- Modelled from the spec: `interfaces/character.py` is not in the source
tree; per spec §3 a character has an `idx` and an `identifier_in_scene`
(other descriptive attributes are irrelevant to the scheduler). -/
structure CharacterInScene where
  idx : Nat
  identifier_in_scene : String
  deriving DecidableEq, Repr

/-- Variation magnitude of a shot (spec §3: `variation_type` ∈
{small, medium, large}). -/
inductive VariationType
  | small
  | medium
  | large
  deriving DecidableEq, Repr

/-- Modelled from the spec: `interfaces/shot_description.py` is not in the
source tree; fields are those of spec §3 and the accesses made by
`script2video_pipeline.py`. -/
structure ShotDescription where
  idx : Nat
  cam_idx : Nat
  visual_desc : String
  motion_desc : String
  audio_desc : String
  ff_desc : String
  lf_desc : String
  ff_vis_char_idxs : List Nat
  lf_vis_char_idxs : List Nat
  variation_type : VariationType
  deriving DecidableEq, Repr

/-- Modelled from the spec: `interfaces/shot_description.py` is not in the
source tree; a brief has an `idx` and coarse textual content. -/
structure ShotBriefDescription where
  idx : Nat
  content : String
  deriving DecidableEq, Repr

/-- Modelled from the spec: `interfaces/camera.py` is not in the source
tree; per spec §3 a camera has `idx`, `active_shot_idxs`, optional
`parent_cam_idx` / `parent_shot_idx`, optional `missing_info`.  The fields
not passed to the constructor in `construct_camera_tree` default to
`none`. -/
structure Camera where
  idx : Nat
  active_shot_idxs : List Nat
  parent_cam_idx : Option Nat
  parent_shot_idx : Option Nat
  missing_info : Option String
  deriving DecidableEq, Repr

/-- `shot_description.variation_type in ["medium", "large"]`. -/
def ShotDescription.needsLastFrame (sd : ShotDescription) : Bool :=
  sd.variation_type = VariationType.medium ∨ sd.variation_type = VariationType.large

/-- Logical paths under the working directory (the path scheme of
`script2video_pipeline.py`, which is injective on its arguments). `stored`
covers paths that are not built by the pipeline itself but read back from
persisted registries. -/
inductive FPath
  | charactersJson
  | registryJson
  | storyboardJson
  | cameraTreeJson
  | shotDescriptionJson (shot : Nat)
  | firstFrame (shot : Nat)
  | lastFrame (shot : Nat)
  | transitionVideo (shot parent : Nat)
  | newCameraImage (shot cam : Nat)
  | frameSelectorOutput (shot : Nat) (ft : FrameType)
  | shotVideo (shot : Nat)
  | finalVideo
  | portraitPng (charIdx : Nat) (ident : String) (view : String)
  | stored (s : String)
  deriving DecidableEq, Repr

/-- `shots/<idx>/{first,last}_frame.png`. -/
def framePath (shot : Nat) : FrameType → FPath
  | FrameType.first => FPath.firstFrame shot
  | FrameType.last => FPath.lastFrame shot

/-- One portrait registry entry: `{"path": ..., "description": ...}`. -/
structure PortraitItem where
  path : FPath
  description : String
  deriving DecidableEq, Repr

/-- `character_portraits_registry`: identifier → view → item (dicts are
modelled as insertion-ordered association lists). -/
abbrev Registry := List (String × List (String × PortraitItem))

/-- Output of `ReferenceImageSelector.select_reference_images_and_generate_prompt`
(persisted as `*_selector_output.json`). -/
structure SelectorOutput where
  reference_image_path_and_text_pairs : List (FPath × String)
  text_prompt : String
  deriving DecidableEq, Repr

/-- Structured content of a persisted file.  Media files carry an opaque
tag standing for their bytes. -/
inductive Artifact
  | charactersFile (cs : List CharacterInScene)
  | registryFile (r : Registry)
  | storyboardFile (bs : List ShotBriefDescription)
  | shotDescFile (sd : ShotDescription)
  | cameraTreeFile (cams : List Camera)
  | selectorFile (out : SelectorOutput)
  | image (tag : String)
  | video (tag : String)
  deriving DecidableEq, Repr

/-- Keys of the class-level `asyncio.Event` registries
(`frame_events[shot][frame_type]`, `character_portrait_events[idx]`,
`shot_desc_events[idx]`). -/
inductive EventKey
  | frame (shot : Nat) (ft : FrameType)
  | charPortrait (idx : Nat)
  | shotDesc (idx : Nat)
  deriving DecidableEq, Repr

/-- An external generation call (the arguments the pipeline passes to a
collaborator). -/
inductive GenCall
  | chatExtractCharacters (script : String)
  | chatStoryboard (script : String) (userRequirement : String)
  | chatDecompose (brief : ShotBriefDescription)
  | chatCameraTree (cams : List Camera)
  | chatSelect (pool : List (FPath × String)) (frameDescription : String)
  | imageGen (prompt : String) (refs : List FPath) (size : String)
  | videoGen (prompt : String) (refs : List FPath)
  | transitionVideoGen (firstDesc secondDesc : String) (firstFF : FPath)
  | portraitGenFront (charIdx : Nat) (style : String)
  | portraitGenFromFront (charIdx : Nat) (view : String) (frontPath : FPath)
  deriving DecidableEq, Repr

/-- Observable actions of a run. -/
inductive Act
  | call (c : GenCall)
  | save (p : FPath) (a : Artifact)
  | setEvent (k : EventKey)
  | wait (k : EventKey)
  | concat (clips : List FPath)
  deriving DecidableEq, Repr

/-- The filesystem under the working directory. -/
abbrev FS := List (FPath × Artifact)

/-- `os.path.exists` / reading a file: first binding wins (later saves
shadow earlier content). -/
def lookupFs (fs : FS) (p : FPath) : Option Artifact :=
  match fs with
  | [] => none
  | (q, a) :: rest => if q = p then some a else lookupFs rest p

/-- Writing a file (overwrite = shadow). -/
def saveFs (fs : FS) (p : FPath) (a : Artifact) : FS := (p, a) :: fs

/-- `os.path.exists`. -/
def existsFs (fs : FS) (p : FPath) : Bool := (lookupFs fs p).isSome

/-- Mutable state of a run: the on-disk store and the set of coordination
signals that have fired (`Event.set`).  Events that were merely created but
never set are not represented: waiting on them blocks either way. -/
structure PState where
  fs : FS
  events : List EventKey
  deriving DecidableEq, Repr

/-- A cooperative computation: from a state, either `none` (this schedule
blocks: an unfired awaited signal, or a Python exception) or the recorded
action trace, the returned value and the final state. -/
def StepM (α : Type) := PState → Option (List Act × α × PState)

/-- Return a value with an empty trace. -/
def StepM.pure {α : Type} (a : α) : StepM α := fun s => some ([], a, s)

/-- Sequencing: traces are concatenated, the state is threaded, `none`
(blocked / raised) is absorbing. -/
def StepM.bind {α β : Type} (x : StepM α) (f : α → StepM β) : StepM β := fun s =>
  match x s with
  | none => none
  | some (t₁, a, s₁) =>
    match f a s₁ with
    | none => none
    | some (t₂, b, s₂) => some (t₁ ++ t₂, b, s₂)

instance : Monad StepM where
  pure := StepM.pure
  bind := StepM.bind

/-- Read the current state. -/
def getState : StepM PState := fun s => some ([], s, s)

/-- A Python exception (or a blocked schedule). -/
def failStep {α : Type} : StepM α := fun _ => none

/-- Lift an optional value; `none` is an exception. -/
def ofOption {α : Type} : Option α → StepM α
  | some a => fun s => some ([], a, s)
  | none => failStep

/-- Record an external generation call. -/
def callGen (c : GenCall) : StepM Unit := fun s => some ([Act.call c], (), s)

/-- Record a non-call, non-filesystem action (video concatenation). -/
def emitConcat (clips : List FPath) : StepM Unit :=
  fun s => some ([Act.concat clips], (), s)

/-- `artifact.save(path)`: write the file and record the action. -/
def saveArtifact (p : FPath) (a : Artifact) : StepM Unit :=
  fun s => some ([Act.save p a], (), { s with fs := saveFs s.fs p a })

/-- `event.set()`. -/
def fireEvent (k : EventKey) : StepM Unit :=
  fun s => some ([Act.setEvent k], (), { s with events := k :: s.events })

/-- `await event.wait()`: under the fixed schedule this succeeds only if
the signal has already fired, otherwise the schedule blocks. -/
def waitEvent (k : EventKey) : StepM Unit :=
  fun s => if k ∈ s.events then some ([Act.wait k], (), s) else none

/-- `os.path.exists(p)` as a computation. -/
def checkExists (p : FPath) : StepM Bool :=
  fun s => some ([], existsFs s.fs p, s)

/-- Read a file; missing file is an exception. -/
def readFile (p : FPath) : StepM Artifact := fun s =>
  match lookupFs s.fs p with
  | some a => some ([], a, s)
  | none => none

/-- The external collaborators (chat model, image generator, video
generator, portrait generator, frame extraction), as pure result
functions; every invocation is separately recorded in the trace. -/
structure Oracle where
  extractCharacters : String → List CharacterInScene
  designStoryboard : String → String → List ShotBriefDescription
  decompose : ShotBriefDescription → ShotDescription
  assignCameraTree : List Camera → List Camera
  selectRefs : List (FPath × String) → String → SelectorOutput
  genImage : String → List FPath → String
  genVideo : String → List FPath → String
  genTransition : String → String → FPath → String
  extractLastFrame : FPath → String
  genPortrait : Nat → String → String

/-- Lookup in a string-keyed association list (a Python dict access). -/
def lookupStr {β : Type} (xs : List (String × β)) (k : String) : Option β :=
  match xs with
  | [] => none
  | (q, v) :: rest => if q = k then some v else lookupStr rest k

/-- `for view, item in registry_item.items(): append (item.path, item.description)`. -/
def viewPairs (views : List (String × PortraitItem)) : List (FPath × String) :=
  views.map fun vi => (vi.2.path, vi.2.description)

/-- The reference pool built from a list of already-resolved visible
characters (`generate_frame_for_single_shot`, lines 416–420); a character
missing from the registry is a `KeyError`. -/
def charPool (reg : Registry) : List CharacterInScene → Option (List (FPath × String))
  | [] => some []
  | c :: rest =>
    match lookupStr reg c.identifier_in_scene with
    | none => none
    | some views => (charPool reg rest).map fun tail => viewPairs views ++ tail

/-- The reference pool built from character indices
(`generate_frames_for_single_camera`, lines 245–249): each index is looked
up in `characters`, then in the registry. -/
def anchorCharPool (chars : List CharacterInScene) (reg : Registry) :
    List Nat → Option (List (FPath × String))
  | [] => some []
  | i :: rest =>
    match chars.get? i with
    | none => none
    | some c =>
      match lookupStr reg c.identifier_in_scene with
      | none => none
      | some views => (anchorCharPool chars reg rest).map fun tail => viewPairs views ++ tail

/-- `characters[idx] for idx in idxs` (a list of Python list accesses). -/
def resolveChars (chars : List CharacterInScene) (idxs : List Nat) :
    Option (List CharacterInScene) :=
  idxs.mapM chars.get?

/-- The caution caption attached to the transition-derived candidate image
(lines 280–285); a Python f-string renders `None` as the text `"None"`. -/
def cautionText (missingInfo : Option String) : String :=
  "The composition and background are correct but some elements may be wrong. The wrong elements should be replaced.\nWrong elements: "
    ++ (match missingInfo with | none => "None" | some m => m)
    ++ ".\nYou must select this image as the main reference and replace the characters in the image with the provided character portraits. Don't change the background."

/-- Load a persisted selector output, or invoke the Reference Selector and
persist its output (lines 291–304 and 425–437 are this same logic). -/
def selectorStep (o : Oracle) (selPath : FPath) (pool : List (FPath × String))
    (frameDesc : String) : StepM SelectorOutput := do
  let s ← getState
  match lookupFs s.fs selPath with
  | some (Artifact.selectorFile out) => pure out
  | some _ => failStep
  | none => do
    callGen (GenCall.chatSelect pool frameDesc)
    let out := o.selectRefs pool frameDesc
    saveArtifact selPath (Artifact.selectorFile out)
    pure out

/-- `"Image {i}: {text}\n"` prefix over the enumerated selected pairs,
then the selector's text prompt (lines 307–310 and 440–443). -/
def imagePromptOf (out : SelectorOutput) : String :=
  (out.reference_image_path_and_text_pairs.enum.foldl
      (fun acc it => acc ++ "Image " ++ toString it.1 ++ ": " ++ it.2.2 ++ "\n") "")
    ++ "\n" ++ out.text_prompt

/-- The selected reference image paths (`[item[0] for item in ...]`). -/
def refImagePaths (out : SelectorOutput) : List FPath :=
  out.reference_image_path_and_text_pairs.map (·.1)

/-- The `image_generator.generate_single_image(...)` call made from a
selector output (lines 312–316 and 446–450). -/
def genImageFromSelector (o : Oracle) (out : SelectorOutput) : StepM Artifact := do
  callGen (GenCall.imageGen (imagePromptOf out) (refImagePaths out) "1600x900")
  pure (Artifact.image (o.genImage (imagePromptOf out) (refImagePaths out)))

/-- `Script2VideoPipeline.generate_frame_for_single_shot` (lines 398–456). -/
def generateFrameForSingleShot (o : Oracle) (shot : Nat) (ft : FrameType)
    (anchorPair : FPath × String) (frameDesc : String)
    (visChars : List CharacterInScene) (reg : Registry) : StepM FPath := do
  let fp := framePath shot ft
  let s ← getState
  if existsFs s.fs fp then
    pure ()
  else do
    let pool0 ← ofOption (charPool reg visChars)
    let pool := pool0 ++ [anchorPair]
    let out ← selectorStep o (FPath.frameSelectorOutput shot ft) pool frameDesc
    let img ← genImageFromSelector o out
    saveArtifact fp img
  fireEvent (EventKey.frame shot ft)
  pure fp

/-- `Script2VideoPipeline.generate_video_for_single_shot` (lines 373–396). -/
def generateVideoForSingleShot (o : Oracle) (sd : ShotDescription) : StepM Unit := do
  let vp := FPath.shotVideo sd.idx
  let s ← getState
  if existsFs s.fs vp then
    pure ()
  else do
    waitEvent (EventKey.frame sd.idx FrameType.first)
    if sd.needsLastFrame then
      waitEvent (EventKey.frame sd.idx FrameType.last)
    else
      pure ()
    let frames := [FPath.firstFrame sd.idx]
      ++ (if sd.needsLastFrame then [FPath.lastFrame sd.idx] else [])
    let prompt := sd.motion_desc ++ "\n" ++ sd.audio_desc
    callGen (GenCall.videoGen prompt frames)
    saveArtifact vp (Artifact.video (o.genVideo prompt frames))

/-- Lines 252–285 of `generate_frames_for_single_camera`: the
parent-continuation block — wait for the parent shot's first frame,
memoized transition-video generation, memoized new-camera-image
extraction; returns the (possibly extended) reference pool and the
new-camera image path.  The caution-captioned candidate is appended only
in the branch that freshly generates the new-camera image. -/
def anchorParentBlock (o : Oracle) (camera : Camera) (sds : List ShotDescription)
    (firstShotIdx : Nat) (ffVisDesc : String) (pool0 : List (FPath × String))
    (parentShotIdx : Nat) : StepM (List (FPath × String) × Option FPath) :=
  waitEvent (EventKey.frame parentShotIdx FrameType.first) >>= fun _ =>
  getState >>= fun s₁ =>
  (if existsFs s₁.fs (FPath.transitionVideo firstShotIdx parentShotIdx) then
     pure ()
   else
     ofOption (sds.get? parentShotIdx) >>= fun parentSD =>
     callGen (GenCall.transitionVideoGen parentSD.visual_desc ffVisDesc
       (FPath.firstFrame parentShotIdx)) >>= fun _ =>
     saveArtifact (FPath.transitionVideo firstShotIdx parentShotIdx)
       (Artifact.video (o.genTransition parentSD.visual_desc ffVisDesc
         (FPath.firstFrame parentShotIdx)))) >>= fun _ =>
  getState >>= fun s₂ =>
  if existsFs s₂.fs (FPath.newCameraImage firstShotIdx camera.idx) then
    pure (pool0, some (FPath.newCameraImage firstShotIdx camera.idx))
  else
    readFile (FPath.transitionVideo firstShotIdx parentShotIdx) >>= fun _ =>
    saveArtifact (FPath.newCameraImage firstShotIdx camera.idx)
      (Artifact.image (o.extractLastFrame
        (FPath.transitionVideo firstShotIdx parentShotIdx))) >>= fun _ =>
    pure (pool0 ++ [(FPath.newCameraImage firstShotIdx camera.idx,
                     cautionText camera.missing_info)],
          some (FPath.newCameraImage firstShotIdx camera.idx))

/-- Lines 289–319: Reference-Selector-driven generation of the camera's
anchor frame, then its signal. -/
def anchorSelectorFlow (o : Oracle) (firstShotIdx : Nat)
    (pool : List (FPath × String)) (ffDesc : String) : StepM Unit := do
  let out ← selectorStep o (FPath.frameSelectorOutput firstShotIdx FrameType.first) pool ffDesc
  let img ← genImageFromSelector o out
  saveArtifact (FPath.firstFrame firstShotIdx) img
  fireEvent (EventKey.frame firstShotIdx FrameType.first)

/-- Lines 320–323: the new-camera image is copied into place as the
anchor frame, then its signal fires (reaching this branch without a
new-camera image would be a Python `NameError`). -/
def anchorCopyFlow (firstShotIdx : Nat) (ncOpt : Option FPath) : StepM Unit := do
  let ncPath ← ofOption ncOpt
  let art ← readFile ncPath
  saveArtifact (FPath.firstFrame firstShotIdx) art
  fireEvent (EventKey.frame firstShotIdx FrameType.first)

/-- Lines 241–323: generation of the anchor frame when it is not yet on
disk. -/
def anchorGenBlock (o : Oracle) (camera : Camera) (sds : List ShotDescription)
    (chars : List CharacterInScene) (reg : Registry) (firstShotIdx : Nat) :
    StepM Unit :=
  ofOption (sds.get? firstShotIdx) >>= fun firstSD =>
  ofOption (anchorCharPool chars reg firstSD.ff_vis_char_idxs) >>= fun pool0 =>
  (match camera.parent_shot_idx with
   | some parentShotIdx =>
     anchorParentBlock o camera sds firstShotIdx firstSD.visual_desc pool0 parentShotIdx
   | none => pure (pool0, none)) >>= fun poolAndNc =>
  if camera.parent_shot_idx = none ∨ camera.missing_info ≠ none then
    anchorSelectorFlow o firstShotIdx poolAndNc.1 firstSD.ff_desc
  else
    anchorCopyFlow firstShotIdx poolAndNc.2

/-- Phase 1 of `generate_frames_for_single_camera` (lines 233–323): the
camera's anchor frame. -/
def anchorPhase (o : Oracle) (camera : Camera) (sds : List ShotDescription)
    (chars : List CharacterInScene) (reg : Registry) : StepM Unit := do
  let firstShotIdx ← ofOption camera.active_shot_idxs.head?
  let s ← getState
  if existsFs s.fs (FPath.firstFrame firstShotIdx) then
    fireEvent (EventKey.frame firstShotIdx FrameType.first)
  else
    anchorGenBlock o camera sds chars reg firstShotIdx

/-- One frame-generation task created in the fan-out phase: all arguments
of the corresponding `generate_frame_for_single_shot(...)` coroutine,
evaluated eagerly at creation time. -/
structure FrameTaskSpec where
  shot : Nat
  frameType : FrameType
  anchorPair : FPath × String
  frameDesc : String
  visChars : List CharacterInScene
  deriving DecidableEq, Repr

/-- The first-frame task created for a fan-out shot (lines 342–349). -/
def firstFrameSpec (anchorPair : FPath × String) (sds : List ShotDescription)
    (chars : List CharacterInScene) (shot : Nat) : Option FrameTaskSpec :=
  match sds.get? shot with
  | none => none
  | some sd =>
    (resolveChars chars sd.ff_vis_char_idxs).map fun vis =>
      { shot := shot, frameType := FrameType.first, anchorPair := anchorPair,
        frameDesc := sd.ff_desc, visChars := vis }

/-- The last-frame task created for a shot (lines 331–338 and 357–364). -/
def lastFrameSpec (anchorPair : FPath × String) (sds : List ShotDescription)
    (chars : List CharacterInScene) (shot : Nat) : Option FrameTaskSpec :=
  match sds.get? shot with
  | none => none
  | some sd =>
    (resolveChars chars sd.lf_vis_char_idxs).map fun vis =>
      { shot := shot, frameType := FrameType.last, anchorPair := anchorPair,
        frameDesc := sd.lf_desc, visChars := vis }

/-- The loop of lines 341–365: for every non-first active shot, create its
first-frame task (into the priority list iff the shot index is in
`priority_shot_idxs`, else into the normal list) and, when its variation
type needs one, its last-frame task (always into the normal list). -/
def fanoutRest (anchorPair : FPath × String) (sds : List ShotDescription)
    (chars : List CharacterInScene) (prio : List Nat) :
    List Nat → Option (List FrameTaskSpec × List FrameTaskSpec)
  | [] => some ([], [])
  | shot :: rest =>
    (sds.get? shot).bind fun sd =>
    (firstFrameSpec anchorPair sds chars shot).bind fun ffTask =>
    (if sd.needsLastFrame then (lastFrameSpec anchorPair sds chars shot).map fun t => [t]
     else some []).bind fun lfTasks =>
    (fanoutRest anchorPair sds chars prio rest).bind fun pn =>
    some (if shot ∈ prio then (ffTask :: pn.1, lfTasks ++ pn.2)
          else (pn.1, ffTask :: (lfTasks ++ pn.2)))

/-- The complete task creation of the fan-out phase (lines 326–366):
first the first shot's last-frame task (if needed), then the loop over
`active_shot_idxs[1:]`. -/
def buildFanoutTasks (camera : Camera) (sds : List ShotDescription)
    (chars : List CharacterInScene) (prio : List Nat) :
    Option (List FrameTaskSpec × List FrameTaskSpec) :=
  match camera.active_shot_idxs with
  | [] => none
  | firstShotIdx :: rest =>
    (sds.get? firstShotIdx).bind fun firstSD =>
    (FPath.firstFrame firstShotIdx, firstSD.ff_desc) |> fun anchorPair =>
    (if firstSD.needsLastFrame then
       (lastFrameSpec anchorPair sds chars firstShotIdx).map fun t => [t]
     else some []).bind fun firstLf =>
    (fanoutRest anchorPair sds chars prio rest).bind fun pn =>
    some (pn.1, firstLf ++ pn.2)

/-- Run one created frame task. -/
def runFrameTask (o : Oracle) (reg : Registry) (t : FrameTaskSpec) : StepM FPath :=
  generateFrameForSingleShot o t.shot t.frameType t.anchorPair t.frameDesc t.visChars reg

/-- `asyncio.gather` over frame tasks under the fixed schedule: run them to
completion in creation order. -/
def runTasks (o : Oracle) (reg : Registry) : List FrameTaskSpec → StepM Unit
  | [] => pure ()
  | t :: rest => do
    let _ ← runFrameTask o reg t
    runTasks o reg rest

/-- `Script2VideoPipeline.generate_frames_for_single_camera`
(lines 225–369): anchor phase, task creation, then
`await gather(priority); await gather(normal)`. -/
def generateFramesForSingleCamera (o : Oracle) (camera : Camera)
    (sds : List ShotDescription) (chars : List CharacterInScene)
    (reg : Registry) (prio : List Nat) : StepM Unit := do
  anchorPhase o camera sds chars reg
  let tasks ← ofOption (buildFanoutTasks camera sds chars prio)
  runTasks o reg tasks.1
  runTasks o reg tasks.2

/-- `Script2VideoPipeline.extract_characters` (lines 488–508). The loop at
lines 505–506 creates (but does not set) per-character events, so it has no
effect on the fired-signal set. -/
def extractCharacters (o : Oracle) (script : String) : StepM (List CharacterInScene) := do
  let s ← getState
  match lookupFs s.fs FPath.charactersJson with
  | some (Artifact.charactersFile cs) => pure cs
  | some _ => failStep
  | none => do
    callGen (GenCall.chatExtractCharacters script)
    let cs := o.extractCharacters script
    saveArtifact FPath.charactersJson (Artifact.charactersFile cs)
    pure cs

/-- `Script2VideoPipeline.generate_portraits_for_single_character`
(lines 543–592): front, then side and back (each memoized by existence),
then the character's portrait event is set. -/
def generatePortraitsForSingleCharacter (o : Oracle) (c : CharacterInScene)
    (style : String) : StepM (String × List (String × PortraitItem)) := do
  let frontPath := FPath.portraitPng c.idx c.identifier_in_scene "front"
  let s ← getState
  if existsFs s.fs frontPath then
    pure ()
  else do
    callGen (GenCall.portraitGenFront c.idx style)
    saveArtifact frontPath (Artifact.image (o.genPortrait c.idx "front"))
  let sidePath := FPath.portraitPng c.idx c.identifier_in_scene "side"
  let s₁ ← getState
  if existsFs s₁.fs sidePath then
    pure ()
  else do
    callGen (GenCall.portraitGenFromFront c.idx "side" frontPath)
    saveArtifact sidePath (Artifact.image (o.genPortrait c.idx "side"))
  let backPath := FPath.portraitPng c.idx c.identifier_in_scene "back"
  let s₂ ← getState
  if existsFs s₂.fs backPath then
    pure ()
  else do
    callGen (GenCall.portraitGenFromFront c.idx "back" frontPath)
    saveArtifact backPath (Artifact.image (o.genPortrait c.idx "back"))
  fireEvent (EventKey.charPortrait c.idx)
  pure (c.identifier_in_scene,
    [("front", { path := frontPath, description := "A front view portrait of " ++ c.identifier_in_scene ++ "." }),
     ("side", { path := sidePath, description := "A side view portrait of " ++ c.identifier_in_scene ++ "." }),
     ("back", { path := backPath, description := "A back view portrait of " ++ c.identifier_in_scene ++ "." })])

/-- The `as_completed` loop of `generate_character_portraits`
(lines 526–536) under the fixed schedule: chains complete in creation
order; after each, the registry is updated and re-persisted. -/
def portraitChains (o : Oracle) (style : String) (reg : Registry) :
    List CharacterInScene → StepM Registry
  | [] => pure reg
  | c :: rest => do
    let entry ← generatePortraitsForSingleCharacter o c style
    let reg' := reg ++ [entry]
    saveArtifact FPath.registryJson (Artifact.registryFile reg')
    portraitChains o style reg' rest

/-- `Script2VideoPipeline.generate_character_portraits` (lines 511–540),
invoked with `character_portraits_registry=None`. -/
def generateCharacterPortraits (o : Oracle) (chars : List CharacterInScene)
    (style : String) : StepM Registry := do
  let s ← getState
  let reg ←
    match lookupFs s.fs FPath.registryJson with
    | some (Artifact.registryFile r) => pure r
    | some _ => failStep
    | none => pure []
  portraitChains o style reg
    (chars.filter fun c => (lookupStr reg c.identifier_in_scene).isNone)

/-- `Script2VideoPipeline.design_storyboard` (lines 596–623). The loop at
lines 620–621 creates (but does not set) per-shot events. -/
def designStoryboard (o : Oracle) (script : String) (userRequirement : String) :
    StepM (List ShotBriefDescription) := do
  let s ← getState
  match lookupFs s.fs FPath.storyboardJson with
  | some (Artifact.storyboardFile bs) => pure bs
  | some _ => failStep
  | none => do
    callGen (GenCall.chatStoryboard script userRequirement)
    let bs := o.designStoryboard script userRequirement
    saveArtifact FPath.storyboardJson (Artifact.storyboardFile bs)
    pure bs

/-- `decompose_visual_description_for_single_shot_brief_description`
(lines 641–675): memoized decomposition, then the shot-description event is
set (line 663; the frame events of lines 665–673 are created unset). -/
def decomposeSingleShot (o : Oracle) (b : ShotBriefDescription) :
    StepM ShotDescription := do
  let s ← getState
  let sd ←
    match lookupFs s.fs (FPath.shotDescriptionJson b.idx) with
    | some (Artifact.shotDescFile sd) => pure sd
    | some _ => failStep
    | none => do
      callGen (GenCall.chatDecompose b)
      let sd := o.decompose b
      saveArtifact (FPath.shotDescriptionJson b.idx) (Artifact.shotDescFile sd)
      pure sd
  fireEvent (EventKey.shotDesc b.idx)
  pure sd

/-- `decompose_visual_descriptions` (lines 627–638): gather over the
briefs, under the fixed schedule. -/
def decomposeAll (o : Oracle) : List ShotBriefDescription → StepM (List ShotDescription)
  | [] => pure []
  | b :: rest => do
    let sd ← decomposeSingleShot o b
    let sds ← decomposeAll o rest
    pure (sd :: sds)

/-- One iteration of the grouping loop of `construct_camera_tree`
(lines 473–477): if no existing camera has this `cam_idx`, append a fresh
camera; otherwise append the shot to `cameras[cam_idx]` — a POSITIONAL
index into the camera list (an out-of-range position is a Python
`IndexError`, modelled as `none`). -/
def groupStep (cams : List Camera) (sd : ShotDescription) : Option (List Camera) :=
  if sd.cam_idx ∈ cams.map Camera.idx then
    match cams.get? sd.cam_idx with
    | none => none
    | some cam =>
      some (cams.set sd.cam_idx
        { cam with active_shot_idxs := cam.active_shot_idxs ++ [sd.idx] })
  else
    some (cams ++ [{ idx := sd.cam_idx, active_shot_idxs := [sd.idx],
                     parent_cam_idx := none, parent_shot_idx := none,
                     missing_info := none }])

/-- The grouping loop of `construct_camera_tree` (lines 472–477). -/
def groupShots (sds : List ShotDescription) : Option (List Camera) :=
  sds.foldlM groupStep []

/-- `Script2VideoPipeline.construct_camera_tree` (lines 459–483). -/
def constructCameraTree (o : Oracle) (sds : List ShotDescription) :
    StepM (List Camera) := do
  let s ← getState
  match lookupFs s.fs FPath.cameraTreeJson with
  | some (Artifact.cameraTreeFile tree) => pure tree
  | some _ => failStep
  | none => do
    let cams ← ofOption (groupShots sds)
    callGen (GenCall.chatCameraTree cams)
    let tree := o.assignCameraTree cams
    saveArtifact FPath.cameraTreeJson (Artifact.cameraTreeFile tree)
    pure tree

/-- Line 188: `[camera.parent_cam_idx for camera in camera_tree if
camera.parent_cam_idx is not None]`. -/
def priorityShotIdxs (tree : List Camera) : List Nat :=
  tree.filterMap Camera.parent_cam_idx

/-- Gather over the per-camera frame tasks, under the fixed schedule. -/
def runCameraTasks (o : Oracle) (sds : List ShotDescription)
    (chars : List CharacterInScene) (reg : Registry) (prio : List Nat) :
    List Camera → StepM Unit
  | [] => pure ()
  | cam :: rest => do
    generateFramesForSingleCamera o cam sds chars reg prio
    runCameraTasks o sds chars reg prio rest

/-- Gather over the per-shot video tasks, under the fixed schedule. -/
def runVideoTasks (o : Oracle) : List ShotDescription → StepM Unit
  | [] => pure ()
  | sd :: rest => do
    generateVideoForSingleShot o sd
    runVideoTasks o rest

/-- Open every listed file (`VideoFileClip` on a missing file raises). -/
def readAll : List FPath → StepM (List Artifact)
  | [] => pure []
  | p :: ps => do
    let a ← readFile p
    let rest ← readAll ps
    pure (a :: rest)

/-- The concatenation step of `__call__` (lines 209–222): skipped when
`final_video.mp4` exists; otherwise every shot's clip is opened
(`VideoFileClip` on a missing file raises), the clips are concatenated in
shot-description-list order and the result is written. -/
def concatStep (sds : List ShotDescription) : StepM FPath := do
  let s ← getState
  if existsFs s.fs FPath.finalVideo then
    pure ()
  else do
    let clips := sds.map fun sd => FPath.shotVideo sd.idx
    let _ ← readAll clips
    emitConcat clips
    saveArtifact FPath.finalVideo (Artifact.video "concatenated")
  pure FPath.finalVideo

/-- `Script2VideoPipeline.__call__` (lines 127–222), invoked with
`characters=None` and `character_portraits_registry=None`; the top-level
`asyncio.gather` at line 207 (camera frame tasks, then video tasks, in
creation order) runs under the fixed schedule. -/
def pipelineCall (o : Oracle) (script userRequirement style : String) :
    StepM FPath := do
  let chars ← extractCharacters o script
  let s ← getState
  let reg ←
    match lookupFs s.fs FPath.registryJson with
    | some (Artifact.registryFile r) => pure r
    | some _ => failStep
    | none => do
      let r ← generateCharacterPortraits o chars style
      saveArtifact FPath.registryJson (Artifact.registryFile r)
      pure r
  let storyboard ← designStoryboard o script userRequirement
  let sds ← decomposeAll o storyboard
  let tree ← constructCameraTree o sds
  let prio := priorityShotIdxs tree
  runCameraTasks o sds chars reg prio tree
  runVideoTasks o sds
  concatStep sds

/-! ## Derived notions used by the specification claims -/

/-- Effect of one action on the filesystem (only saves change it). -/
def applyActFs (fs : FS) : Act → FS
  | Act.save p a => saveFs fs p a
  | _ => fs

/-- Effect of an action sequence on the filesystem. -/
def applyActsFs (fs : FS) (acts : List Act) : FS := acts.foldl applyActFs fs

/-- A single action respects the artifact-before-signal discipline at the
given filesystem: a (shot, frame-type) signal may fire only when the
corresponding frame artifact is on disk. -/
def signalOk (fs : FS) : Act → Bool
  | Act.setEvent (EventKey.frame shot ft) => existsFs fs (framePath shot ft)
  | _ => true

/-- An action trace respects the artifact-before-signal discipline when
started from the given filesystem: each action is checked against the
filesystem as of the moment it happens. -/
def signalsSafe (fs : FS) : List Act → Bool
  | [] => true
  | a :: rest => signalOk fs a && signalsSafe (applyActFs fs a) rest

/-- An action that is neither a generation call nor any write to the
store: second-run traces must consist only of these. -/
def passiveAct : Act → Bool
  | Act.setEvent _ => true
  | Act.wait _ => true
  | _ => false

/-- A computation is signal-safe when every completed run from every state
produces a trace that respects the artifact-before-signal discipline, and
reports the filesystem its trace builds. -/
def SafeTriple {α : Type} (m : StepM α) : Prop :=
  ∀ s t a s', m s = some (t, a, s') →
    signalsSafe s.fs t = true ∧ s'.fs = applyActsFs s.fs t

/-- On the filesystem `fs`, the computation completes from any event
state, returns `v`, performs only passive actions (no generation call, no
write) and leaves the filesystem untouched. -/
def PassiveRun {α : Type} (m : StepM α) (fs : FS) (v : α) : Prop :=
  ∀ ev, ∃ acts ev', m { fs := fs, events := ev } =
      some (acts, v, { fs := fs, events := ev' }) ∧
    acts.all passiveAct = true

/-- `characters.json` parses. -/
def parsedCharacters (fs : FS) : Option (List CharacterInScene) :=
  match lookupFs fs FPath.charactersJson with
  | some (Artifact.charactersFile cs) => some cs
  | _ => none

/-- `character_portraits_registry.json` parses. -/
def parsedRegistry (fs : FS) : Option Registry :=
  match lookupFs fs FPath.registryJson with
  | some (Artifact.registryFile r) => some r
  | _ => none

/-- `storyboard.json` parses. -/
def parsedStoryboard (fs : FS) : Option (List ShotBriefDescription) :=
  match lookupFs fs FPath.storyboardJson with
  | some (Artifact.storyboardFile bs) => some bs
  | _ => none

/-- `shots/<idx>/shot_description.json` parses. -/
def parsedShotDesc (fs : FS) (idx : Nat) : Option ShotDescription :=
  match lookupFs fs (FPath.shotDescriptionJson idx) with
  | some (Artifact.shotDescFile sd) => some sd
  | _ => none

/-- `camera_tree.json` parses. -/
def parsedTree (fs : FS) : Option (List Camera) :=
  match lookupFs fs FPath.cameraTreeJson with
  | some (Artifact.cameraTreeFile tree) => some tree
  | _ => none

/-- All artifacts this camera's frame task would produce are already on
disk (its anchor frame, and every created fan-out task's frame), and the
task creation itself succeeds. -/
def readyCamera (fs : FS) (sds : List ShotDescription)
    (chars : List CharacterInScene) (prio : List Nat) (cam : Camera) : Bool :=
  match cam.active_shot_idxs.head? with
  | none => false
  | some f =>
    existsFs fs (FPath.firstFrame f) &&
    (match buildFanoutTasks cam sds chars prio with
     | none => false
     | some (p, n) => (p ++ n).all fun t => existsFs fs (framePath t.shot t.frameType))

/-- The working directory already contains every artifact a run would
produce: all five JSON registries parse, every shot's description is
persisted, every camera's frames exist, every shot's video exists and the
final video exists. -/
def secondRunReady (fs : FS) : Bool :=
  match parsedCharacters fs, parsedRegistry fs, parsedStoryboard fs, parsedTree fs with
  | some chars, some _, some bs, some tree =>
    (bs.all fun b => (parsedShotDesc fs b.idx).isSome) &&
    tree.all (readyCamera fs (bs.filterMap fun b => parsedShotDesc fs b.idx) chars
      (priorityShotIdxs tree)) &&
    (bs.filterMap fun b => parsedShotDesc fs b.idx).all
      (fun sd => existsFs fs (FPath.shotVideo sd.idx)) &&
    existsFs fs FPath.finalVideo
  | _, _, _, _ => false

/-! ## A small process language for the concurrency claims

`await asyncio.gather(ts)` over coroutines admits any interleaving of the
component traces; `a; b` concatenates.  Each frame task is an atom with a
start event and a completion event. -/

/-- Identity of a frame task: its (shot, frame-type) pair. -/
def taskId (t : FrameTaskSpec) : Nat × FrameType := (t.shot, t.frameType)

/-- Concurrency skeleton of a piece of the pipeline. -/
inductive Proc
  | task (id : Nat × FrameType)
  | seq (p q : Proc)
  | gather (ps : List Proc)

/-- Start / completion events of tasks. -/
inductive TEv
  | start (id : Nat × FrameType)
  | fin (id : Nat × FrameType)
  deriving DecidableEq, Repr

/-- The task a trace event belongs to. -/
def tevId : TEv → Nat × FrameType
  | TEv.start id => id
  | TEv.fin id => id

/-- `Interleave xs ys zs`: `zs` is an order-preserving merge of `xs` and
`ys`. -/
inductive Interleave {α : Type} : List α → List α → List α → Prop
  | nil : Interleave [] [] []
  | left {xs ys zs : List α} {a : α} :
      Interleave xs ys zs → Interleave (a :: xs) ys (a :: zs)
  | right {xs ys zs : List α} {b : α} :
      Interleave xs ys zs → Interleave xs (b :: ys) (b :: zs)

/-- The traces a process may produce under cooperative scheduling. -/
inductive Traces : Proc → List TEv → Prop
  | task (id : Nat × FrameType) : Traces (Proc.task id) [TEv.start id, TEv.fin id]
  | seq {p q : Proc} {t₁ t₂ : List TEv} :
      Traces p t₁ → Traces q t₂ → Traces (Proc.seq p q) (t₁ ++ t₂)
  | gatherNil : Traces (Proc.gather []) []
  | gatherCons {p : Proc} {ps : List Proc} {t₁ t₂ t : List TEv} :
      Traces p t₁ → Traces (Proc.gather ps) t₂ → Interleave t₁ t₂ t →
      Traces (Proc.gather (p :: ps)) t

mutual

/-- The task identities occurring in a process. -/
def procIds : Proc → List (Nat × FrameType)
  | Proc.task id => [id]
  | Proc.seq p q => procIds p ++ procIds q
  | Proc.gather ps => procIdsList ps

/-- The task identities occurring in a list of processes. -/
def procIdsList : List Proc → List (Nat × FrameType)
  | [] => []
  | p :: ps => procIds p ++ procIdsList ps

end

/-- The concurrent block of one class of created frame tasks. -/
def gatherOf (ts : List FrameTaskSpec) : Proc :=
  Proc.gather (ts.map fun t => Proc.task (taskId t))

/-- Concurrency skeleton of one camera's fan-out phase (lines 368–369):
the priority gather, then the normal gather. -/
def cameraFanoutProc (camera : Camera) (sds : List ShotDescription)
    (chars : List CharacterInScene) (prio : List Nat) : Option Proc :=
  (buildFanoutTasks camera sds chars prio).map fun pn =>
    Proc.seq (gatherOf pn.1) (gatherOf pn.2)

/-- Concurrency skeleton of the fan-out phases of all cameras, which the
top-level `asyncio.gather` (line 207) runs concurrently with each other. -/
def framePhaseProc (tree : List Camera) (sds : List ShotDescription)
    (chars : List CharacterInScene) : Option Proc :=
  (tree.mapM fun cam => cameraFanoutProc cam sds chars (priorityShotIdxs tree)).map
    Proc.gather

/-! ## `VideoGeneratorVeoGoogleAPI.generate_single_video` (argument
validation and model selection, `video_generator_veo_google_api.py`
lines 41–65) -/

/-- Configuration of the Veo video generator client. -/
structure VeoConfig where
  t2v_model : String
  ff2v_model : String
  flf2v_model : String
  hasRateLimiter : Bool
  deriving DecidableEq, Repr

/-- Observable actions of `generate_single_video` up to the first API
attempt. -/
inductive VeoAct
  | acquire
  | generateVideos (model : String) (image : Option String)
      (lastFrame : Option String) (prompt : String)
  deriving DecidableEq, Repr

/-- The prefix of `generate_single_video` up to the first
`client.models.generate_videos` attempt: parameter/model selection by
reference-image count, the `ValueError` for more than two references, then
the optional rate-limiter acquisition and the API call.  The polling /
retry logic after the first attempt involves live API state and is outside
this model; the `ok` result carries the selected model name. -/
def veoGenerateSingleVideo (cfg : VeoConfig) (prompt : String)
    (reference_image_paths : List String) : List VeoAct × Except String String :=
  match reference_image_paths with
  | [] =>
    ((if cfg.hasRateLimiter then [VeoAct.acquire] else [])
       ++ [VeoAct.generateVideos cfg.t2v_model none none prompt],
     Except.ok cfg.t2v_model)
  | [r₀] =>
    ((if cfg.hasRateLimiter then [VeoAct.acquire] else [])
       ++ [VeoAct.generateVideos cfg.ff2v_model (some r₀) none prompt],
     Except.ok cfg.ff2v_model)
  | [r₀, r₁] =>
    ((if cfg.hasRateLimiter then [VeoAct.acquire] else [])
       ++ [VeoAct.generateVideos cfg.flf2v_model (some r₀) (some r₁) prompt],
     Except.ok cfg.flf2v_model)
  | _ =>
    ([], Except.error "The number of reference images must be no more than 2")

/-! ## A concrete oracle for witnesses -/

/-- A fixed external collaborator used to evaluate the embedding on
concrete inputs. -/
def oracle₀ : Oracle where
  extractCharacters := fun _ => []
  designStoryboard := fun _ _ => []
  decompose := fun b =>
    { idx := b.idx, cam_idx := 0, visual_desc := "", motion_desc := "",
      audio_desc := "", ff_desc := "", lf_desc := "", ff_vis_char_idxs := [],
      lf_vis_char_idxs := [], variation_type := VariationType.small }
  assignCameraTree := fun cams => cams
  selectRefs := fun _ _ => { reference_image_path_and_text_pairs := [], text_prompt := "P" }
  genImage := fun _ _ => "img"
  genVideo := fun _ _ => "vid"
  genTransition := fun _ _ _ => "trans"
  extractLastFrame := fun _ => "lastframe"
  genPortrait := fun _ v => v

/-! ## Concrete inputs used by witnesses and counterexamples -/

/-- A shot description with the given index, camera, variation type and
first-frame visible characters; all texts empty. -/
def mkSD (idx cam : Nat) (v : VariationType) : ShotDescription :=
  { idx := idx, cam_idx := cam, visual_desc := "", motion_desc := "",
    audio_desc := "", ff_desc := "", lf_desc := "", ff_vis_char_idxs := [],
    lf_vis_char_idxs := [], variation_type := v }

/-- A one-shot small-variation scene. -/
def sdSmall₀ : ShotDescription := mkSD 0 0 VariationType.small

/-- A state in which shot 0's video already exists. -/
def stVideoDone : PState :=
  { fs := [(FPath.shotVideo 0, Artifact.video "v")], events := [] }

/-- A three-shot single camera whose middle shot has medium variation. -/
def camThreeShots : Camera :=
  { idx := 0, active_shot_idxs := [0, 1, 2], parent_cam_idx := none,
    parent_shot_idx := none, missing_info := none }

/-- Shot descriptions for `camThreeShots`: only shot 1 is medium. -/
def sdsThreeShots : List ShotDescription :=
  [mkSD 0 0 VariationType.small, mkSD 1 0 VariationType.medium, mkSD 2 0 VariationType.small]

/-- A root camera holding shots 0 and 5. -/
def camZeroFive : Camera :=
  { idx := 0, active_shot_idxs := [0, 5], parent_cam_idx := none,
    parent_shot_idx := none, missing_info := none }

/-- A camera tree whose second camera continues from camera 0's shot 5:
`parent_cam_idx = 0`, `parent_shot_idx = 5`. -/
def treeParent5 : List Camera :=
  [camZeroFive,
   { idx := 1, active_shot_idxs := [6], parent_cam_idx := some 0,
     parent_shot_idx := some 5, missing_info := some "x" }]

/-- Seven small shot descriptions, indices 0–6. -/
def sdsSeven : List ShotDescription :=
  [mkSD 0 0 VariationType.small, mkSD 1 0 VariationType.small,
   mkSD 2 0 VariationType.small, mkSD 3 0 VariationType.small,
   mkSD 4 0 VariationType.small, mkSD 5 0 VariationType.small,
   mkSD 6 1 VariationType.small]

/-- A shot list on which the grouping loop's positional indexing goes
wrong: camera indices first appear in the order 1, 0. -/
def sdsGroupBug : List ShotDescription :=
  [mkSD 0 1 VariationType.small, mkSD 1 0 VariationType.small,
   mkSD 2 1 VariationType.small]

/-- A state in which only the final video exists. -/
def stFinalDone : PState :=
  { fs := [(FPath.finalVideo, Artifact.video "f")], events := [] }

/-- A state in which shot 1's first frame already exists. -/
def stFrameDone : PState :=
  { fs := [(FPath.firstFrame 1, Artifact.image "x")], events := [] }

/-- A working directory holding every artifact a one-shot, one-camera run
would produce. -/
def stSecondRun : PState :=
  { fs := [
      (FPath.charactersJson, Artifact.charactersFile []),
      (FPath.registryJson, Artifact.registryFile []),
      (FPath.storyboardJson, Artifact.storyboardFile [{ idx := 0, content := "b" }]),
      (FPath.shotDescriptionJson 0, Artifact.shotDescFile (mkSD 0 0 VariationType.small)),
      (FPath.cameraTreeJson, Artifact.cameraTreeFile
        [{ idx := 0, active_shot_idxs := [0], parent_cam_idx := none,
           parent_shot_idx := none, missing_info := none }]),
      (FPath.firstFrame 0, Artifact.image "f"),
      (FPath.shotVideo 0, Artifact.video "v"),
      (FPath.finalVideo, Artifact.video "fv")],
    events := [] }

/-- A Veo generator configuration with a rate limiter. -/
def veoCfg₀ : VeoConfig :=
  { t2v_model := "t2v", ff2v_model := "ff2v", flf2v_model := "flf2v",
    hasRateLimiter := true }

/-- A camera that continues from camera 0 at shot 1, anchors at shot 3 and
has missing info to resolve. -/
def camResume : Camera :=
  { idx := 7, active_shot_idxs := [3], parent_cam_idx := some 0,
    parent_shot_idx := some 1, missing_info := some "hat" }

/-- Four small shots; shot 3 belongs to `camResume`. -/
def sdsResume : List ShotDescription :=
  [mkSD 0 0 VariationType.small, mkSD 1 0 VariationType.small,
   mkSD 2 0 VariationType.small, mkSD 3 7 VariationType.small]

/-- A resumed working directory: the transition video and the new-camera
image of shot 3 were produced by an interrupted earlier run, but neither
shot 3's first frame nor its selector output exist; the parent shot's
first-frame signal has fired. -/
def stResume : PState :=
  { fs := [(FPath.transitionVideo 3 1, Artifact.video "t"),
           (FPath.newCameraImage 3 7, Artifact.image "n")],
    events := [EventKey.frame 1 FrameType.first] }

/-- The action trace of `camResume`'s frame task started in `stResume`. -/
def resumeRunActs : List Act :=
  [Act.wait (EventKey.frame 1 FrameType.first),
   Act.call (GenCall.chatSelect [] ""),
   Act.save (FPath.frameSelectorOutput 3 FrameType.first)
     (Artifact.selectorFile { reference_image_path_and_text_pairs := [], text_prompt := "P" }),
   Act.call (GenCall.imageGen "\nP" [] "1600x900"),
   Act.save (FPath.firstFrame 3) (Artifact.image "img"),
   Act.setEvent (EventKey.frame 3 FrameType.first)]

/-- A first-frame task spec anchored at shot 0 with empty texts. -/
def specFF (shot : Nat) : FrameTaskSpec :=
  { shot := shot, frameType := FrameType.first,
    anchorPair := (FPath.firstFrame 0, ""), frameDesc := "", visChars := [] }

/-- A last-frame task spec anchored at shot 0 with empty texts. -/
def specLF (shot : Nat) : FrameTaskSpec :=
  { shot := shot, frameType := FrameType.last,
    anchorPair := (FPath.firstFrame 0, ""), frameDesc := "", visChars := [] }

/-- A root camera holding shots 0 and 1. -/
def camU : Camera :=
  { idx := 0, active_shot_idxs := [0, 1], parent_cam_idx := none,
    parent_shot_idx := none, missing_info := none }

/-- A root camera holding shots 2 and 3. -/
def camV : Camera :=
  { idx := 1, active_shot_idxs := [2, 3], parent_cam_idx := none,
    parent_shot_idx := none, missing_info := none }

/-- A two-camera forest with no parent links. -/
def treeUV : List Camera := [camU, camV]

/-- The concurrency skeleton of `treeUV`'s frame phase over `sdsSeven`. -/
def phaseUV : Proc :=
  Proc.gather
    [Proc.seq (gatherOf []) (gatherOf [specFF 1]),
     Proc.seq (gatherOf []) (gatherOf [specFF 3])]

/-- The state after `camResume`'s frame task started in `stResume`. -/
def resumeRunState : PState :=
  { fs := [(FPath.firstFrame 3, Artifact.image "img"),
           (FPath.frameSelectorOutput 3 FrameType.first,
            Artifact.selectorFile { reference_image_path_and_text_pairs := [], text_prompt := "P" }),
           (FPath.transitionVideo 3 1, Artifact.video "t"),
           (FPath.newCameraImage 3 7, Artifact.image "n")],
    events := [EventKey.frame 3 FrameType.first, EventKey.frame 1 FrameType.first] }

/-! ## Basic lemmas about the embedding -/

theorem StepM.bind_apply {α β : Type} (x : StepM α) (f : α → StepM β) (s : PState) :
    (x >>= f) s =
      match x s with
      | none => none
      | some (t₁, a, s₁) =>
        match f a s₁ with
        | none => none
        | some (t₂, b, s₂) => some (t₁ ++ t₂, b, s₂) := rfl

theorem StepM.pure_apply {α : Type} (a : α) (s : PState) :
    (pure a : StepM α) s = some ([], a, s) := rfl

theorem getState_apply (s : PState) : getState s = some ([], s, s) := rfl

theorem waitEvent_apply (k : EventKey) (s : PState) :
    waitEvent k s = if k ∈ s.events then some ([Act.wait k], (), s) else none := rfl

theorem callGen_apply (c : GenCall) (s : PState) :
    callGen c s = some ([Act.call c], (), s) := rfl

theorem saveArtifact_apply (p : FPath) (a : Artifact) (s : PState) :
    saveArtifact p a s = some ([Act.save p a], (), { s with fs := saveFs s.fs p a }) := rfl

theorem fireEvent_apply (k : EventKey) (s : PState) :
    fireEvent k s = some ([Act.setEvent k], (), { s with events := k :: s.events }) := rfl

/-- C1: for every shot, `generate_video_for_single_shot` performs no action
at all when the shot's `video.mp4` exists; otherwise, under the cooperative
schedule it blocks (produces nothing) until the shot's first-frame signal —
and, for a medium/large shot, its last-frame signal — has fired, and in any
completed run every video-generator call is preceded in the trace by the
wait on the first-frame signal and (for medium/large shots) by the wait on
the last-frame signal. -/
theorem video_waits_for_frame_signals (o : Oracle) (sd : ShotDescription) (s : PState) :
    (existsFs s.fs (FPath.shotVideo sd.idx) = true →
      generateVideoForSingleShot o sd s = some ([], (), s)) ∧
    (existsFs s.fs (FPath.shotVideo sd.idx) = false →
      EventKey.frame sd.idx FrameType.first ∉ s.events →
      generateVideoForSingleShot o sd s = none) ∧
    (existsFs s.fs (FPath.shotVideo sd.idx) = false →
      sd.needsLastFrame = true →
      EventKey.frame sd.idx FrameType.last ∉ s.events →
      generateVideoForSingleShot o sd s = none) ∧
    (∀ acts u s', generateVideoForSingleShot o sd s = some (acts, u, s') →
      ∀ i c, acts.get? i = some (Act.call c) →
        (∃ j, j < i ∧ acts.get? j = some (Act.wait (EventKey.frame sd.idx FrameType.first))) ∧
        (sd.needsLastFrame = true →
          ∃ j, j < i ∧ acts.get? j = some (Act.wait (EventKey.frame sd.idx FrameType.last)))) := by
  refine ⟨?_, ?_, ?_, ?_⟩
  · intro h
    simp [generateVideoForSingleShot, StepM.bind_apply, getState_apply, h, StepM.pure_apply,
      instMonadStepM, StepM.pure, StepM.bind]
  · intro h h₁
    simp [generateVideoForSingleShot, StepM.bind_apply, getState_apply, h, StepM.pure_apply,
      instMonadStepM, StepM.pure, StepM.bind, waitEvent, h₁]
  · intro h hml h₂
    by_cases hk₁ : EventKey.frame sd.idx FrameType.first ∈ s.events
    · simp [generateVideoForSingleShot, StepM.bind_apply, getState_apply, h, StepM.pure_apply,
        instMonadStepM, StepM.pure, StepM.bind, waitEvent, hk₁, hml, h₂]
    · simp [generateVideoForSingleShot, StepM.bind_apply, getState_apply, h, StepM.pure_apply,
        instMonadStepM, StepM.pure, StepM.bind, waitEvent, hk₁]
  · intro acts u s' hrun i c hget
    by_cases hex : existsFs s.fs (FPath.shotVideo sd.idx) = true
    · simp [generateVideoForSingleShot, StepM.bind_apply, getState_apply, hex, StepM.pure_apply,
        instMonadStepM, StepM.pure, StepM.bind] at hrun
      rcases hrun with ⟨hacts, _, _⟩
      subst hacts
      simp at hget
    · have hex' : existsFs s.fs (FPath.shotVideo sd.idx) = false := by
        simpa using hex
      by_cases hk₁ : EventKey.frame sd.idx FrameType.first ∈ s.events
      · by_cases hml : sd.needsLastFrame = true
        · by_cases hk₂ : EventKey.frame sd.idx FrameType.last ∈ s.events
          · simp [generateVideoForSingleShot, StepM.bind_apply, getState_apply, hex',
              StepM.pure_apply, instMonadStepM, StepM.pure, StepM.bind, waitEvent, callGen,
              saveArtifact, hk₁, hk₂, hml] at hrun
            rcases hrun with ⟨hacts, _, _⟩
            subst hacts
            rcases i with _ | _ | _ | _ | i
            · simp at hget
            · simp at hget
            · exact ⟨⟨0, by omega, rfl⟩, fun _ => ⟨1, by omega, rfl⟩⟩
            · simp at hget
            · simp at hget
          · simp [generateVideoForSingleShot, StepM.bind_apply, getState_apply, hex',
              StepM.pure_apply, instMonadStepM, StepM.pure, StepM.bind, waitEvent, callGen,
              saveArtifact, hk₁, hk₂, hml] at hrun
        · simp [generateVideoForSingleShot, StepM.bind_apply, getState_apply, hex',
            StepM.pure_apply, instMonadStepM, StepM.pure, StepM.bind, waitEvent, callGen,
            saveArtifact, hk₁, hml] at hrun
          rcases hrun with ⟨hacts, _, _⟩
          subst hacts
          rcases i with _ | _ | _ | i
          · simp at hget
          · exact ⟨⟨0, by omega, rfl⟩, fun hc => absurd hc hml⟩
          · simp at hget
          · simp at hget
      · simp [generateVideoForSingleShot, StepM.bind_apply, getState_apply, hex',
          StepM.pure_apply, instMonadStepM, StepM.pure, StepM.bind, waitEvent, hk₁] at hrun

/-- Witness for C1: with shot 0's `video.mp4` present, the video task of
shot 0 performs no wait and no call. -/
theorem video_waits_for_frame_signals_witness :
    generateVideoForSingleShot oracle₀ sdSmall₀ stVideoDone = some ([], (), stVideoDone) :=
  (video_waits_for_frame_signals oracle₀ sdSmall₀ stVideoDone).1 (by decide)

/-- A created first-frame task targets the given shot's first frame. -/
theorem firstFrameSpec_eq_some {a : FPath × String} {sds : List ShotDescription}
    {chars : List CharacterInScene} {shot : Nat} {t : FrameTaskSpec}
    (h : firstFrameSpec a sds chars shot = some t) :
    t.frameType = FrameType.first ∧ t.shot = shot := by
  unfold firstFrameSpec at h
  cases hsd : sds.get? shot with
  | none => rw [hsd] at h; cases h
  | some sd =>
    rw [hsd] at h
    rcases Option.map_eq_some'.mp h with ⟨vis, _, rfl⟩
    exact ⟨rfl, rfl⟩

/-- A created last-frame task targets the given shot's last frame. -/
theorem lastFrameSpec_eq_some {a : FPath × String} {sds : List ShotDescription}
    {chars : List CharacterInScene} {shot : Nat} {t : FrameTaskSpec}
    (h : lastFrameSpec a sds chars shot = some t) :
    t.frameType = FrameType.last ∧ t.shot = shot := by
  unfold lastFrameSpec at h
  cases hsd : sds.get? shot with
  | none => rw [hsd] at h; cases h
  | some sd =>
    rw [hsd] at h
    rcases Option.map_eq_some'.mp h with ⟨vis, _, rfl⟩
    exact ⟨rfl, rfl⟩

/-- Membership of last-frame tasks in the lists created by the fan-out
loop over the non-first active shots. -/
theorem mem_fanoutRest_last {anchor : FPath × String} {sds : List ShotDescription}
    {chars : List CharacterInScene} {prio : List Nat} {rest : List Nat}
    {p n : List FrameTaskSpec}
    (h : fanoutRest anchor sds chars prio rest = some (p, n)) (s : Nat) :
    (∃ t : FrameTaskSpec, (t ∈ p ∨ t ∈ n) ∧ t.shot = s ∧ t.frameType = FrameType.last) ↔
      (s ∈ rest ∧ ∃ sd, sds.get? s = some sd ∧ sd.needsLastFrame = true) := by
  induction rest generalizing p n with
  | nil =>
    simp only [fanoutRest] at h
    cases h
    simp
  | cons shot rest ih =>
    simp only [fanoutRest, Option.bind_eq_some, Option.some.injEq] at h
    obtain ⟨sd, hsd, ff, hff, lfs, hlf, pn, hrec, hmk⟩ := h
    have hset : ∀ t : FrameTaskSpec,
        (t ∈ p ∨ t ∈ n) ↔ (t = ff ∨ t ∈ lfs ∨ t ∈ pn.1 ∨ t ∈ pn.2) := by
      intro t
      by_cases hp : shot ∈ prio
      · rw [if_pos hp] at hmk
        injection hmk with h₁ h₂
        subst h₁; subst h₂
        simp [List.mem_cons, List.mem_append]
        tauto
      · rw [if_neg hp] at hmk
        injection hmk with h₁ h₂
        subst h₁; subst h₂
        simp [List.mem_cons, List.mem_append]
        tauto
    have hffp := firstFrameSpec_eq_some hff
    constructor
    · rintro ⟨t, hmem, hts, htl⟩
      rcases (hset t).mp hmem with rfl | hlfs | hp1 | hp2
      · rw [hffp.1] at htl; cases htl
      · by_cases hml : sd.needsLastFrame = true
        · rw [if_pos hml] at hlf
          rcases Option.map_eq_some'.mp hlf with ⟨lt, hlt, hlteq⟩
          subst hlteq
          have hmemlt : t = lt := by simpa using hlfs
          subst hmemlt
          obtain ⟨_, hlts⟩ := lastFrameSpec_eq_some hlt
          rw [hlts] at hts
          subst hts
          exact ⟨List.mem_cons_self _ _, sd, hsd, hml⟩
        · rw [if_neg hml] at hlf
          injection hlf with h₁
          subst h₁
          cases hlfs
      · obtain ⟨hsrest, hrest⟩ := (ih hrec).mp ⟨t, Or.inl hp1, hts, htl⟩
        exact ⟨List.mem_cons_of_mem _ hsrest, hrest⟩
      · obtain ⟨hsrest, hrest⟩ := (ih hrec).mp ⟨t, Or.inr hp2, hts, htl⟩
        exact ⟨List.mem_cons_of_mem _ hsrest, hrest⟩
    · rintro ⟨hsmem, sd', hsd', hml'⟩
      rcases List.mem_cons.mp hsmem with rfl | hsrest
      · rw [hsd] at hsd'
        injection hsd' with h₁
        subst h₁
        rw [if_pos hml'] at hlf
        rcases Option.map_eq_some'.mp hlf with ⟨lt, hlt, hlteq⟩
        subst hlteq
        obtain ⟨hltf, hlts⟩ := lastFrameSpec_eq_some hlt
        exact ⟨lt, (hset lt).mpr (Or.inr (Or.inl (by simp))), hlts, hltf⟩
      · obtain ⟨t, hmem, hts, htl⟩ := (ih hrec).mpr ⟨hsrest, sd', hsd', hml'⟩
        refine ⟨t, (hset t).mpr ?_, hts, htl⟩
        tauto

/-- C7: in the fan-out task creation of a camera, a last-frame generation
task for shot `s` is created (in either priority class) exactly when `s`
is one of the camera's active shots and its persisted description has
`variation_type` medium or large; a small-variation shot never gets a
last-frame task, a medium/large one always does. -/
theorem last_frame_task_iff_medium_or_large (camera : Camera)
    (sds : List ShotDescription) (chars : List CharacterInScene)
    (prio : List Nat) (P N : List FrameTaskSpec)
    (h : buildFanoutTasks camera sds chars prio = some (P, N)) (s : Nat) :
    (∃ t : FrameTaskSpec, (t ∈ P ∨ t ∈ N) ∧ t.shot = s ∧ t.frameType = FrameType.last) ↔
      (s ∈ camera.active_shot_idxs ∧
        ∃ sd, sds.get? s = some sd ∧ sd.needsLastFrame = true) := by
  cases hact : camera.active_shot_idxs with
  | nil =>
    rw [buildFanoutTasks, hact] at h
    cases h
  | cons f rest =>
    rw [buildFanoutTasks, hact] at h
    simp only [Option.bind_eq_some, Option.some.injEq] at h
    obtain ⟨fsd, hfsd, firstLf, hflf, pn, hrec, hmk⟩ := h
    injection hmk with h₁ h₂
    subst h₁; subst h₂
    have hset : ∀ t : FrameTaskSpec,
        (t ∈ pn.1 ∨ t ∈ firstLf ++ pn.2) ↔ (t ∈ firstLf ∨ t ∈ pn.1 ∨ t ∈ pn.2) := by
      intro t
      simp [List.mem_append]
      tauto
    constructor
    · rintro ⟨t, hmem, hts, htl⟩
      rcases (hset t).mp hmem with hfl | hp1 | hp2
      · by_cases hml : fsd.needsLastFrame = true
        · rw [if_pos hml] at hflf
          rcases Option.map_eq_some'.mp hflf with ⟨lt, hlt, hlteq⟩
          subst hlteq
          have hmemlt : t = lt := by simpa using hfl
          subst hmemlt
          obtain ⟨_, hlts⟩ := lastFrameSpec_eq_some hlt
          rw [hlts] at hts
          subst hts
          exact ⟨List.mem_cons_self _ _, fsd, hfsd, hml⟩
        · rw [if_neg hml] at hflf
          injection hflf with h₁
          subst h₁
          cases hfl
      · obtain ⟨hsrest, hrest⟩ := (mem_fanoutRest_last hrec s).mp ⟨t, Or.inl hp1, hts, htl⟩
        exact ⟨List.mem_cons_of_mem _ hsrest, hrest⟩
      · obtain ⟨hsrest, hrest⟩ := (mem_fanoutRest_last hrec s).mp ⟨t, Or.inr hp2, hts, htl⟩
        exact ⟨List.mem_cons_of_mem _ hsrest, hrest⟩
    · rintro ⟨hsmem, sd', hsd', hml'⟩
      rcases List.mem_cons.mp hsmem with rfl | hsrest
      · rw [hfsd] at hsd'
        injection hsd' with h₁
        subst h₁
        rw [if_pos hml'] at hflf
        rcases Option.map_eq_some'.mp hflf with ⟨lt, hlt, hlteq⟩
        subst hlteq
        obtain ⟨hltf, hlts⟩ := lastFrameSpec_eq_some hlt
        exact ⟨lt, (hset lt).mpr (Or.inl (by simp)), hlts, hltf⟩
      · obtain ⟨t, hmem, hts, htl⟩ := (mem_fanoutRest_last hrec s).mpr ⟨hsrest, sd', hsd', hml'⟩
        refine ⟨t, (hset t).mpr ?_, hts, htl⟩
        tauto

/-- Witness for C7: in a three-shot camera whose shot 1 is medium, a
last-frame task for shot 1 is created, so shot 1 is active and medium
or large. -/
theorem last_frame_task_iff_medium_or_large_witness :
    1 ∈ camThreeShots.active_shot_idxs ∧
      ∃ sd, sdsThreeShots.get? 1 = some sd ∧ sd.needsLastFrame = true :=
  (last_frame_task_iff_medium_or_large camThreeShots sdsThreeShots [] []
      []
      [{ shot := 1, frameType := FrameType.first,
         anchorPair := (FPath.firstFrame 0, ""), frameDesc := "", visChars := [] },
       { shot := 1, frameType := FrameType.last,
         anchorPair := (FPath.firstFrame 0, ""), frameDesc := "", visChars := [] },
       { shot := 2, frameType := FrameType.first,
         anchorPair := (FPath.firstFrame 0, ""), frameDesc := "", visChars := [] }]
      (by decide) 1).mp
    ⟨{ shot := 1, frameType := FrameType.last,
       anchorPair := (FPath.firstFrame 0, ""), frameDesc := "", visChars := [] },
     by decide, rfl, rfl⟩

/-- C2 (failing input): with `treeParent5`, camera 1's parent link names
shot 5, yet `priority_shot_idxs` — built from `parent_cam_idx` — is `[0]`,
so camera 0's fan-out puts shot 5's first-frame task in the NORMAL class
(and would treat a shot of index 0 as priority although no camera's parent
link names shot 0). -/
theorem priority_class_built_from_parent_cam_idx :
    priorityShotIdxs treeParent5 = [0] ∧
    (∃ c ∈ treeParent5, c.parent_shot_idx = some 5) ∧
    (∀ c ∈ treeParent5, c.parent_shot_idx ≠ some 0) ∧
    treeParent5.get? 0 = some camZeroFive ∧
    buildFanoutTasks camZeroFive sdsSeven [] (priorityShotIdxs treeParent5) =
      some ([],
        [{ shot := 5, frameType := FrameType.first,
           anchorPair := (FPath.firstFrame 0, ""), frameDesc := "", visChars := [] }]) := by
  decide

/-- C10: `generate_single_video` of the Veo client raises its
`ValueError` — having performed no rate-limiter acquisition and no API
call — exactly when more than two reference images are given; with 0, 1
or 2 references no such error occurs and the text-to-video, first-frame,
or first-and-last-frame model is selected respectively. -/
theorem veo_reference_count_validation (cfg : VeoConfig) (prompt : String)
    (refs : List String) :
    (2 < refs.length →
      veoGenerateSingleVideo cfg prompt refs =
        ([], Except.error "The number of reference images must be no more than 2")) ∧
    (refs.length = 0 →
      (veoGenerateSingleVideo cfg prompt refs).2 = Except.ok cfg.t2v_model) ∧
    (refs.length = 1 →
      (veoGenerateSingleVideo cfg prompt refs).2 = Except.ok cfg.ff2v_model) ∧
    (refs.length = 2 →
      (veoGenerateSingleVideo cfg prompt refs).2 = Except.ok cfg.flf2v_model) := by
  rcases refs with _ | ⟨a, _ | ⟨b, _ | ⟨c, rest⟩⟩⟩ <;>
    simp [veoGenerateSingleVideo]

/-- Witness for C10: three reference images yield the `ValueError` with an
empty action trace. -/
theorem veo_reference_count_validation_witness :
    veoGenerateSingleVideo veoCfg₀ "p" ["a", "b", "c"] =
      ([], Except.error "The number of reference images must be no more than 2") :=
  (veo_reference_count_validation veoCfg₀ "p" ["a", "b", "c"]).1 (by decide)

/-- Running `readAll` never acts and never changes the state. -/
theorem readAll_run (ps : List FPath) (s : PState) :
    readAll ps s = none ∨ ∃ arts, readAll ps s = some ([], arts, s) := by
  induction ps with
  | nil => exact Or.inr ⟨[], rfl⟩
  | cons p ps ih =>
    cases hread : lookupFs s.fs p with
    | none =>
      left
      simp [readAll, StepM.bind_apply, readFile, hread]
    | some a =>
      rcases ih with hnone | ⟨arts, hsome⟩
      · left
        simp [readAll, StepM.bind_apply, readFile, hread, hnone]
      · right
        refine ⟨a :: arts, ?_⟩
        simp [readAll, StepM.bind_apply, readFile, hread, hsome, StepM.pure_apply,
          instMonadStepM, StepM.pure, StepM.bind]

/-- C9: the concatenation step is skipped entirely (no action at all) when
`final_video.mp4` exists; every completed run returns the final-video path,
and when the final video was absent the trace contains the concatenation
of the per-shot clips in shot-description-list order — which is shot-index
order 0, 1, 2, … whenever the description list enumerates shot indices in
positional order. -/
theorem final_video_concatenation (sds : List ShotDescription) (s : PState) :
    (existsFs s.fs FPath.finalVideo = true →
      concatStep sds s = some ([], FPath.finalVideo, s)) ∧
    (∀ acts r s', concatStep sds s = some (acts, r, s') →
      r = FPath.finalVideo ∧
      (existsFs s.fs FPath.finalVideo = false →
        Act.concat (sds.map fun sd => FPath.shotVideo sd.idx) ∈ acts)) ∧
    ((∀ i sd, sds.get? i = some sd → sd.idx = i) →
      sds.map (fun sd => FPath.shotVideo sd.idx) =
        (List.range sds.length).map FPath.shotVideo) := by
  refine ⟨?_, ?_, ?_⟩
  · intro h
    simp [concatStep, StepM.bind_apply, getState_apply, h, StepM.pure_apply,
      instMonadStepM, StepM.pure, StepM.bind]
  · intro acts r s' hrun
    by_cases hex : existsFs s.fs FPath.finalVideo = true
    · simp [concatStep, StepM.bind_apply, getState_apply, hex, StepM.pure_apply,
        instMonadStepM, StepM.pure, StepM.bind] at hrun
      exact ⟨hrun.2.1.symm, fun hfalse => absurd hex (by simp [hfalse])⟩
    · have hex' : existsFs s.fs FPath.finalVideo = false := by simpa using hex
      rcases readAll_run (sds.map fun sd => FPath.shotVideo sd.idx) s with hnone | ⟨arts, hsome⟩
      · simp [concatStep, StepM.bind_apply, getState_apply, hex', StepM.pure_apply,
          instMonadStepM, StepM.pure, StepM.bind, hnone] at hrun
      · simp [concatStep, StepM.bind_apply, getState_apply, hex', StepM.pure_apply,
          instMonadStepM, StepM.pure, StepM.bind, hsome, emitConcat, saveArtifact] at hrun
        rcases hrun with ⟨hacts, hr, _⟩
        subst hacts
        exact ⟨hr.symm, fun _ => by simp⟩
  · intro hidx
    apply List.ext_get?
    intro i
    by_cases hlt : i < sds.length
    · obtain ⟨sd, hsd⟩ : ∃ sd, sds.get? i = some sd := by
        rw [List.get?_eq_get hlt]
        exact ⟨_, rfl⟩
      have hi : sd.idx = i := hidx i sd hsd
      rw [List.get?_eq_getElem?] at hsd
      simp [List.getElem?_map, hsd, hi, List.getElem?_range hlt]
    · have h₁ : sds.get? i = none := List.get?_eq_none.mpr (le_of_not_lt hlt)
      have h₂ : (List.range sds.length).get? i = none := by
        rw [List.get?_eq_none]
        simpa using le_of_not_lt hlt
      rw [List.get?_eq_getElem?] at h₁ h₂
      simp [List.getElem?_map, h₁, h₂]

/-- Witness for C9: with `final_video.mp4` present, the concatenation step
does nothing and still returns the final-video path. -/
theorem final_video_concatenation_witness :
    concatStep [sdSmall₀] stFinalDone = some ([], FPath.finalVideo, stFinalDone) :=
  (final_video_concatenation [sdSmall₀] stFinalDone).1 (by decide)

/-- C8 (failing input): on the resumed state `stResume` — the camera has a
parent shot, `missing_info` is present, the anchor frame is absent, and
the new-camera image already exists on disk — the anchor is generated via
the Reference Selector, but the selector is invoked with an EMPTY
candidate pool: the transition-derived candidate with its caution caption
is not passed (the append at lines 280–285 sits in the branch that is
skipped when `new_camera_<idx>.png` exists). -/
theorem resumed_anchor_selector_pool_lacks_candidate :
    generateFramesForSingleCamera oracle₀ camResume sdsResume [] [] [] stResume =
      some (resumeRunActs, (), resumeRunState) ∧
    (∀ pool d, Act.call (GenCall.chatSelect pool d) ∈ resumeRunActs →
      (FPath.newCameraImage 3 7, cautionText (some "hat")) ∉ pool) := by
  refine ⟨by decide, ?_⟩
  intro pool d h
  simp [resumeRunActs] at h
  rcases h with ⟨hpool, _⟩
  subst hpool
  simp

/-- Interleaving with an empty left component. -/
theorem interleave_nil_left {α : Type} (ys : List α) : Interleave [] ys ys := by
  induction ys with
  | nil => exact Interleave.nil
  | cons y ys ih => exact Interleave.right ih

/-- Interleaving with an empty right component. -/
theorem interleave_nil_right {α : Type} (xs : List α) : Interleave xs [] xs := by
  induction xs with
  | nil => exact Interleave.nil
  | cons x xs ih => exact Interleave.left ih

/-- An interleaving only contains elements of its components. -/
theorem interleave_mem {α : Type} {xs ys zs : List α}
    (h : Interleave xs ys zs) : ∀ e ∈ zs, e ∈ xs ∨ e ∈ ys := by
  induction h with
  | nil => intro e he; cases he
  | left h ih =>
    intro e he
    rcases List.mem_cons.mp he with rfl | he'
    · exact Or.inl (List.mem_cons_self _ _)
    · rcases ih e he' with h₁ | h₂
      · exact Or.inl (List.mem_cons_of_mem _ h₁)
      · exact Or.inr h₂
  | right h ih =>
    intro e he
    rcases List.mem_cons.mp he with rfl | he'
    · exact Or.inr (List.mem_cons_self _ _)
    · rcases ih e he' with h₁ | h₂
      · exact Or.inl h₁
      · exact Or.inr (List.mem_cons_of_mem _ h₂)

/-- Every event of a trace belongs to a task of the process. -/
theorem traces_mem {p : Proc} {t : List TEv} (h : Traces p t) :
    ∀ e ∈ t, tevId e ∈ procIds p := by
  induction h with
  | task id =>
    intro e he
    rcases List.mem_cons.mp he with rfl | he'
    · simp [procIds, tevId]
    · rcases List.mem_cons.mp he' with rfl | he''
      · simp [procIds, tevId]
      · cases he''
  | seq h₁ h₂ ih₁ ih₂ =>
    intro e he
    rcases List.mem_append.mp he with h' | h'
    · exact List.mem_append.mpr (Or.inl (ih₁ e h'))
    · exact List.mem_append.mpr (Or.inr (ih₂ e h'))
  | gatherNil => intro e he; cases he
  | gatherCons h₁ h₂ hIL ih₁ ih₂ =>
    intro e he
    rcases interleave_mem hIL e he with h' | h'
    · exact List.mem_append.mpr (Or.inl (ih₁ e h'))
    · exact List.mem_append.mpr (Or.inr (ih₂ e h'))

/-- The tasks of a gathered class are exactly the created specs. -/
theorem procIds_gatherOf (ts : List FrameTaskSpec) :
    procIds (gatherOf ts) = ts.map taskId := by
  unfold gatherOf
  induction ts with
  | nil => rfl
  | cons t ts ih =>
    simp only [gatherOf, procIds] at ih
    simp only [List.map_cons, procIds, procIdsList, ih]
    rfl

/-- C3: (i) in every trace of a camera's fan-out phase — the priority
gather awaited before the normal gather — every completion of a priority
task precedes every start of a normal task; (ii) within one class both
relative orders of two tasks are realizable (tasks of a class run
concurrently); (iii) across two cameras, both relative orders of their
fan-out frame tasks are realizable (no cross-camera ordering). -/
theorem priority_completes_before_normal_starts :
    (∀ (camera : Camera) (sds : List ShotDescription)
       (chars : List CharacterInScene) (prio : List Nat)
       (P N : List FrameTaskSpec) (t : List TEv),
       buildFanoutTasks camera sds chars prio = some (P, N) →
       Traces (Proc.seq (gatherOf P) (gatherOf N)) t →
       ∀ pid nid, pid ∈ P.map taskId → nid ∈ N.map taskId →
         pid ∉ N.map taskId → nid ∉ P.map taskId →
         ∀ i j, t.get? i = some (TEv.fin pid) → t.get? j = some (TEv.start nid) →
           i < j) ∧
    (buildFanoutTasks camThreeShots sdsThreeShots [] [1, 2] =
        some ([specFF 1, specFF 2], [specLF 1]) ∧
     ∃ t₁ t₂ : List TEv,
       Traces (gatherOf [specFF 1, specFF 2]) t₁ ∧
       Traces (gatherOf [specFF 1, specFF 2]) t₂ ∧
       t₁.get? 1 = some (TEv.fin (taskId (specFF 1))) ∧
       t₁.get? 2 = some (TEv.start (taskId (specFF 2))) ∧
       t₂.get? 1 = some (TEv.start (taskId (specFF 2))) ∧
       t₂.get? 3 = some (TEv.fin (taskId (specFF 1)))) ∧
    (framePhaseProc treeUV sdsSeven [] = some phaseUV ∧
     ∃ u₁ u₂ : List TEv,
       Traces phaseUV u₁ ∧ Traces phaseUV u₂ ∧
       u₁.get? 1 = some (TEv.fin (taskId (specFF 1))) ∧
       u₁.get? 2 = some (TEv.start (taskId (specFF 3))) ∧
       u₂.get? 0 = some (TEv.start (taskId (specFF 3))) ∧
       u₂.get? 3 = some (TEv.fin (taskId (specFF 1)))) := by
  refine ⟨?_, ⟨by decide, ?_⟩, ⟨rfl, ?_⟩⟩
  · intro camera sds chars prio P N t hbuild htr pid nid hpP hnN hpnotN hnnotP i j hi hj
    cases htr with
    | seq h₁ h₂ =>
      rename_i t₁ t₂
      have hmem₁ : ∀ e ∈ t₁, tevId e ∈ P.map taskId := by
        intro e he
        have := traces_mem h₁ e he
        rwa [procIds_gatherOf] at this
      have hmem₂ : ∀ e ∈ t₂, tevId e ∈ N.map taskId := by
        intro e he
        have := traces_mem h₂ e he
        rwa [procIds_gatherOf] at this
      have hi' : i < t₁.length := by
        by_contra hge
        push_neg at hge
        rw [List.get?_append_right hge] at hi
        have hmem : TEv.fin pid ∈ t₂ := List.get?_mem hi
        have : pid ∈ N.map taskId := by simpa [tevId] using hmem₂ _ hmem
        exact hpnotN this
      have hj' : t₁.length ≤ j := by
        by_contra hlt
        push_neg at hlt
        rw [List.get?_append hlt] at hj
        have hmem : TEv.start nid ∈ t₁ := List.get?_mem hj
        have : nid ∈ P.map taskId := by simpa [tevId] using hmem₁ _ hmem
        exact hnnotP this
      omega
  · refine ⟨[TEv.start (taskId (specFF 1)), TEv.fin (taskId (specFF 1)),
             TEv.start (taskId (specFF 2)), TEv.fin (taskId (specFF 2))],
            [TEv.start (taskId (specFF 1)), TEv.start (taskId (specFF 2)),
             TEv.fin (taskId (specFF 2)), TEv.fin (taskId (specFF 1))],
            ?_, ?_, rfl, rfl, rfl, rfl⟩
    · exact Traces.gatherCons (Traces.task _)
        (Traces.gatherCons (Traces.task _) Traces.gatherNil (interleave_nil_right _))
        (Interleave.left (Interleave.left (interleave_nil_left _)))
    · exact Traces.gatherCons (Traces.task _)
        (Traces.gatherCons (Traces.task _) Traces.gatherNil (interleave_nil_right _))
        (Interleave.left (Interleave.right (Interleave.right
          (Interleave.left Interleave.nil))))
  · refine ⟨[TEv.start (taskId (specFF 1)), TEv.fin (taskId (specFF 1)),
             TEv.start (taskId (specFF 3)), TEv.fin (taskId (specFF 3))],
            [TEv.start (taskId (specFF 3)), TEv.fin (taskId (specFF 3)),
             TEv.start (taskId (specFF 1)), TEv.fin (taskId (specFF 1))],
            ?_, ?_, rfl, rfl, rfl, rfl⟩
    · exact Traces.gatherCons
        (Traces.seq Traces.gatherNil
          (Traces.gatherCons (Traces.task _) Traces.gatherNil (interleave_nil_right _)))
        (Traces.gatherCons
          (Traces.seq Traces.gatherNil
            (Traces.gatherCons (Traces.task _) Traces.gatherNil (interleave_nil_right _)))
          Traces.gatherNil (interleave_nil_right _))
        (Interleave.left (Interleave.left (interleave_nil_left _)))
    · exact Traces.gatherCons
        (Traces.seq Traces.gatherNil
          (Traces.gatherCons (Traces.task _) Traces.gatherNil (interleave_nil_right _)))
        (Traces.gatherCons
          (Traces.seq Traces.gatherNil
            (Traces.gatherCons (Traces.task _) Traces.gatherNil (interleave_nil_right _)))
          Traces.gatherNil (interleave_nil_right _))
        (Interleave.right (Interleave.right (interleave_nil_right _)))

/-- Witness for C3: in the three-shot camera with both non-first shots
prioritized, a trace that completes both priority first-frames and then
runs the normal last-frame task satisfies the ordering conclusion at the
concrete indices 1 and 4. -/
theorem priority_completes_before_normal_starts_witness :
    buildFanoutTasks camThreeShots sdsThreeShots [] [1, 2] =
      some ([specFF 1, specFF 2], [specLF 1]) ∧ (1 : Nat) < 4 :=
  ⟨by decide,
   priority_completes_before_normal_starts.1 camThreeShots sdsThreeShots [] [1, 2]
     [specFF 1, specFF 2] [specLF 1]
     ([TEv.start (taskId (specFF 1)), TEv.fin (taskId (specFF 1)),
       TEv.start (taskId (specFF 2)), TEv.fin (taskId (specFF 2))] ++
      [TEv.start (taskId (specLF 1)), TEv.fin (taskId (specLF 1))])
     (by decide)
     (Traces.seq
       (Traces.gatherCons (Traces.task _)
         (Traces.gatherCons (Traces.task _) Traces.gatherNil (interleave_nil_right _))
         (Interleave.left (Interleave.left (interleave_nil_left _))))
       (Traces.gatherCons (Traces.task _) Traces.gatherNil (interleave_nil_right _)))
     (taskId (specFF 1)) (taskId (specLF 1))
     (by decide) (by decide) (by decide) (by decide)
     1 4 rfl rfl⟩

theorem applyActsFs_append (fs : FS) (xs ys : List Act) :
    applyActsFs fs (xs ++ ys) = applyActsFs (applyActsFs fs xs) ys := by
  simp [applyActsFs, List.foldl_append]

theorem signalsSafe_append (fs : FS) (xs ys : List Act) :
    signalsSafe fs (xs ++ ys) =
      (signalsSafe fs xs && signalsSafe (applyActsFs fs xs) ys) := by
  induction xs generalizing fs with
  | nil => simp [signalsSafe, applyActsFs]
  | cons x xs ih => simp [signalsSafe, applyActsFs, ih, Bool.and_assoc]

/-- Sequencing preserves signal-safety. -/
theorem safe_bind {α β : Type} {x : StepM α} {f : α → StepM β}
    (hx : SafeTriple x) (hf : ∀ a, SafeTriple (f a)) : SafeTriple (x >>= f) := by
  intro s t b s' h
  replace h : StepM.bind x f s = some (t, b, s') := h
  unfold StepM.bind at h
  cases hxs : x s with
  | none => simp only [hxs] at h; cases h
  | some r₁ =>
    obtain ⟨t₁, a, s₁⟩ := r₁
    simp only [hxs] at h
    cases hfs : f a s₁ with
    | none => simp only [hfs] at h; cases h
    | some r₂ =>
      obtain ⟨t₂, b₂, s₂⟩ := r₂
      simp only [hfs, Option.some.injEq, Prod.mk.injEq] at h
      obtain ⟨rfl, rfl, rfl⟩ := h
      obtain ⟨hsafe₁, hfs₁⟩ := hx s t₁ a s₁ hxs
      obtain ⟨hsafe₂, hfs₂⟩ := hf a s₁ t₂ b₂ s₂ hfs
      constructor
      · rw [signalsSafe_append, hsafe₁, ← hfs₁, hsafe₂]
        rfl
      · rw [applyActsFs_append, ← hfs₁, hfs₂]

theorem safe_pure {α : Type} (a : α) : SafeTriple (pure a : StepM α) := by
  intro s t b s' h
  replace h : some (([] : List Act), a, s) = some (t, b, s') := h
  simp only [Option.some.injEq, Prod.mk.injEq] at h
  obtain ⟨rfl, rfl, rfl⟩ := h
  exact ⟨rfl, rfl⟩

theorem safe_ofOption {α : Type} (x : Option α) : SafeTriple (ofOption x) := by
  cases x with
  | none => intro s t b s' h; cases h
  | some a =>
    intro s t b s' h
    replace h : some (([] : List Act), a, s) = some (t, b, s') := h
    simp only [Option.some.injEq, Prod.mk.injEq] at h
    obtain ⟨rfl, rfl, rfl⟩ := h
    exact ⟨rfl, rfl⟩

/-- `generate_frame_for_single_shot` fires its signal only after its frame
artifact is on disk. -/
theorem safe_generateFrameForSingleShot (o : Oracle) (shot : Nat) (ft : FrameType)
    (anchorPair : FPath × String) (frameDesc : String)
    (visChars : List CharacterInScene) (reg : Registry) :
    SafeTriple (generateFrameForSingleShot o shot ft anchorPair frameDesc visChars reg) := by
  intro s t a s' h
  by_cases hex : existsFs s.fs (framePath shot ft) = true
  · simp [generateFrameForSingleShot, StepM.bind_apply, getState_apply, hex, StepM.pure_apply,
      instMonadStepM, StepM.pure, StepM.bind, fireEvent] at h
    obtain ⟨rfl, -, rfl⟩ := h
    simp [signalsSafe, signalOk, hex, applyActsFs, applyActFs]
  · have hex' : existsFs s.fs (framePath shot ft) = false := by simpa using hex
    cases hpool : charPool reg visChars with
    | none =>
      simp [generateFrameForSingleShot, StepM.bind_apply, getState_apply, hex', StepM.pure_apply,
        instMonadStepM, StepM.pure, StepM.bind, ofOption, failStep, hpool] at h
    | some pool0 =>
      cases hsel : lookupFs s.fs (FPath.frameSelectorOutput shot ft) with
      | none =>
        simp [generateFrameForSingleShot, StepM.bind_apply, getState_apply, hex', StepM.pure_apply,
          instMonadStepM, StepM.pure, StepM.bind, ofOption, failStep, hpool, selectorStep,
          genImageFromSelector, callGen, saveArtifact, fireEvent, hsel] at h
        obtain ⟨rfl, -, rfl⟩ := h
        simp [signalsSafe, signalOk, applyActsFs, applyActFs, existsFs, lookupFs, saveFs]
      | some art =>
        cases art with
        | selectorFile out =>
          simp [generateFrameForSingleShot, StepM.bind_apply, getState_apply, hex',
            StepM.pure_apply, instMonadStepM, StepM.pure, StepM.bind, ofOption, failStep, hpool,
            selectorStep, genImageFromSelector, callGen, saveArtifact, fireEvent, hsel] at h
          obtain ⟨rfl, -, rfl⟩ := h
          simp [signalsSafe, signalOk, applyActsFs, applyActFs, existsFs, lookupFs, saveFs]
        | charactersFile cs =>
          simp [generateFrameForSingleShot, StepM.bind_apply, getState_apply, hex',
            StepM.pure_apply, instMonadStepM, StepM.pure, StepM.bind, ofOption, failStep, hpool,
            selectorStep, hsel] at h
        | registryFile r =>
          simp [generateFrameForSingleShot, StepM.bind_apply, getState_apply, hex',
            StepM.pure_apply, instMonadStepM, StepM.pure, StepM.bind, ofOption, failStep, hpool,
            selectorStep, hsel] at h
        | storyboardFile bs =>
          simp [generateFrameForSingleShot, StepM.bind_apply, getState_apply, hex',
            StepM.pure_apply, instMonadStepM, StepM.pure, StepM.bind, ofOption, failStep, hpool,
            selectorStep, hsel] at h
        | shotDescFile sd =>
          simp [generateFrameForSingleShot, StepM.bind_apply, getState_apply, hex',
            StepM.pure_apply, instMonadStepM, StepM.pure, StepM.bind, ofOption, failStep, hpool,
            selectorStep, hsel] at h
        | cameraTreeFile cams =>
          simp [generateFrameForSingleShot, StepM.bind_apply, getState_apply, hex',
            StepM.pure_apply, instMonadStepM, StepM.pure, StepM.bind, ofOption, failStep, hpool,
            selectorStep, hsel] at h
        | image tag =>
          simp [generateFrameForSingleShot, StepM.bind_apply, getState_apply, hex',
            StepM.pure_apply, instMonadStepM, StepM.pure, StepM.bind, ofOption, failStep, hpool,
            selectorStep, hsel] at h
        | video tag =>
          simp [generateFrameForSingleShot, StepM.bind_apply, getState_apply, hex',
            StepM.pure_apply, instMonadStepM, StepM.pure, StepM.bind, ofOption, failStep, hpool,
            selectorStep, hsel] at h

theorem safe_getState : SafeTriple getState := by
  intro s t b s' h
  replace h : some (([] : List Act), s, s) = some (t, b, s') := h
  simp only [Option.some.injEq, Prod.mk.injEq] at h
  obtain ⟨rfl, rfl, rfl⟩ := h
  exact ⟨rfl, rfl⟩

theorem safe_callGen (c : GenCall) : SafeTriple (callGen c) := by
  intro s t b s' h
  replace h : some ([Act.call c], (), s) = some (t, b, s') := h
  simp only [Option.some.injEq, Prod.mk.injEq] at h
  obtain ⟨rfl, -, rfl⟩ := h
  simp [signalsSafe, signalOk, applyActsFs, applyActFs]

theorem safe_waitEvent (k : EventKey) : SafeTriple (waitEvent k) := by
  intro s t b s' h
  unfold waitEvent at h
  by_cases hk : k ∈ s.events
  · rw [if_pos hk] at h
    simp only [Option.some.injEq, Prod.mk.injEq] at h
    obtain ⟨rfl, -, rfl⟩ := h
    simp [signalsSafe, signalOk, applyActsFs, applyActFs]
  · rw [if_neg hk] at h
    cases h

theorem safe_saveArtifact (p : FPath) (a : Artifact) : SafeTriple (saveArtifact p a) := by
  intro s t b s' h
  replace h : some ([Act.save p a], (), { s with fs := saveFs s.fs p a }) = some (t, b, s') := h
  simp only [Option.some.injEq, Prod.mk.injEq] at h
  obtain ⟨rfl, -, rfl⟩ := h
  simp [signalsSafe, signalOk, applyActsFs, applyActFs]

theorem safe_readFile (p : FPath) : SafeTriple (readFile p) := by
  intro s t b s' h
  unfold readFile at h
  cases hl : lookupFs s.fs p with
  | none => rw [hl] at h; cases h
  | some a =>
    rw [hl] at h
    simp only [Option.some.injEq, Prod.mk.injEq] at h
    obtain ⟨rfl, rfl, rfl⟩ := h
    exact ⟨rfl, rfl⟩

theorem safe_ite {α : Type} {c : Prop} [Decidable c] {x y : StepM α}
    (hx : SafeTriple x) (hy : SafeTriple y) : SafeTriple (if c then x else y) := by
  by_cases h : c
  · rwa [if_pos h]
  · rwa [if_neg h]

/-- Saving an artifact and then firing that frame's signal respects the
discipline: the signal fires on a filesystem that contains the frame. -/
theorem safe_saveThenFire (p : FPath) (art : Artifact) (shot : Nat) (ft : FrameType)
    (hp : framePath shot ft = p) :
    SafeTriple (saveArtifact p art >>= fun _ => fireEvent (EventKey.frame shot ft)) := by
  intro s t b s' h
  replace h : some ([Act.save p art] ++ [Act.setEvent (EventKey.frame shot ft)], (),
      { s with fs := saveFs s.fs p art,
               events := EventKey.frame shot ft :: s.events }) = some (t, b, s') := h
  simp only [Option.some.injEq, Prod.mk.injEq] at h
  obtain ⟨rfl, -, rfl⟩ := h
  constructor
  · simp [signalsSafe, signalOk, applyActFs, existsFs, lookupFs, saveFs, hp]
  · simp [applyActsFs, applyActFs]

theorem safe_selectorStep (o : Oracle) (selPath : FPath)
    (pool : List (FPath × String)) (frameDesc : String) :
    SafeTriple (selectorStep o selPath pool frameDesc) := by
  intro s t b s' h
  cases hsel : lookupFs s.fs selPath with
  | none =>
    simp [selectorStep, StepM.bind_apply, getState_apply, hsel, StepM.pure_apply,
      instMonadStepM, StepM.pure, StepM.bind, callGen, saveArtifact] at h
    obtain ⟨rfl, -, rfl⟩ := h
    simp [signalsSafe, signalOk, applyActsFs, applyActFs]
  | some art =>
    cases art <;>
      simp [selectorStep, StepM.bind_apply, getState_apply, hsel, StepM.pure_apply,
        instMonadStepM, StepM.pure, StepM.bind, failStep] at h
    obtain ⟨rfl, -, rfl⟩ := h
    exact ⟨rfl, rfl⟩

theorem safe_genImageFromSelector (o : Oracle) (out : SelectorOutput) :
    SafeTriple (genImageFromSelector o out) := by
  intro s t b s' h
  replace h : some ([Act.call (GenCall.imageGen (imagePromptOf out) (refImagePaths out)
      "1600x900")] ++ [], Artifact.image (o.genImage (imagePromptOf out) (refImagePaths out)),
      s) = some (t, b, s') := h
  simp only [Option.some.injEq, Prod.mk.injEq] at h
  obtain ⟨rfl, rfl, rfl⟩ := h
  simp [signalsSafe, signalOk, applyActsFs, applyActFs]

theorem safe_anchorParentBlock (o : Oracle) (camera : Camera)
    (sds : List ShotDescription) (firstShotIdx : Nat) (ffVisDesc : String)
    (pool0 : List (FPath × String)) (parentShotIdx : Nat) :
    SafeTriple (anchorParentBlock o camera sds firstShotIdx ffVisDesc pool0 parentShotIdx) := by
  unfold anchorParentBlock
  refine safe_bind (safe_waitEvent _) fun _ => ?_
  refine safe_bind safe_getState fun s₁ => ?_
  refine safe_bind (safe_ite (safe_pure _) ?_) fun _ => ?_
  · exact safe_bind (safe_ofOption _) fun psd =>
      safe_bind (safe_callGen _) fun _ => safe_saveArtifact _ _
  · refine safe_bind safe_getState fun s₂ => ?_
    refine safe_ite (safe_pure _) ?_
    exact safe_bind (safe_readFile _) fun _ =>
      safe_bind (safe_saveArtifact _ _) fun _ => safe_pure _

theorem safe_anchorSelectorFlow (o : Oracle) (firstShotIdx : Nat)
    (pool : List (FPath × String)) (ffDesc : String) :
    SafeTriple (anchorSelectorFlow o firstShotIdx pool ffDesc) := by
  unfold anchorSelectorFlow
  refine safe_bind (safe_selectorStep _ _ _ _) fun out => ?_
  refine safe_bind (safe_genImageFromSelector _ _) fun img => ?_
  exact safe_saveThenFire _ _ _ _ rfl

theorem safe_anchorCopyFlow (firstShotIdx : Nat) (ncOpt : Option FPath) :
    SafeTriple (anchorCopyFlow firstShotIdx ncOpt) := by
  unfold anchorCopyFlow
  refine safe_bind (safe_ofOption _) fun nc => ?_
  refine safe_bind (safe_readFile _) fun art => ?_
  exact safe_saveThenFire _ _ _ _ rfl

theorem safe_anchorGenBlock (o : Oracle) (camera : Camera)
    (sds : List ShotDescription) (chars : List CharacterInScene) (reg : Registry)
    (firstShotIdx : Nat) :
    SafeTriple (anchorGenBlock o camera sds chars reg firstShotIdx) := by
  unfold anchorGenBlock
  refine safe_bind (safe_ofOption _) fun firstSD => ?_
  refine safe_bind (safe_ofOption _) fun pool0 => ?_
  refine safe_bind ?_ fun poolAndNc => ?_
  · cases camera.parent_shot_idx with
    | some p => exact safe_anchorParentBlock o camera sds firstShotIdx firstSD.visual_desc pool0 p
    | none => exact safe_pure _
  · exact safe_ite (safe_anchorSelectorFlow _ _ _ _) (safe_anchorCopyFlow _ _)

theorem safe_anchorPhase (o : Oracle) (camera : Camera)
    (sds : List ShotDescription) (chars : List CharacterInScene) (reg : Registry) :
    SafeTriple (anchorPhase o camera sds chars reg) := by
  intro s t a s' h
  cases hhead : camera.active_shot_idxs.head? with
  | none =>
    simp [anchorPhase, StepM.bind_apply, instMonadStepM, StepM.pure, StepM.bind,
      ofOption, failStep, hhead] at h
  | some f =>
    by_cases hex : existsFs s.fs (FPath.firstFrame f) = true
    · simp [anchorPhase, StepM.bind_apply, getState_apply, instMonadStepM, StepM.pure,
        StepM.bind, ofOption, failStep, hhead, hex, fireEvent] at h
      obtain ⟨rfl, -, rfl⟩ := h
      simp [signalsSafe, signalOk, hex, applyActsFs, applyActFs, framePath]
    · have hex' : existsFs s.fs (FPath.firstFrame f) = false := by simpa using hex
      have hgen : anchorGenBlock o camera sds chars reg f s = some (t, a, s') := by
        simp [anchorPhase, StepM.bind_apply, getState_apply, instMonadStepM, StepM.pure,
          StepM.bind, ofOption, failStep, hhead, hex'] at h
        cases hrun : anchorGenBlock o camera sds chars reg f s with
        | none => rw [hrun] at h; cases h
        | some r =>
          obtain ⟨t₁, a₁, s₁⟩ := r
          rw [hrun] at h
          simp only [Option.some.injEq, Prod.mk.injEq] at h
          obtain ⟨rfl, -, rfl⟩ := h
          simp
      exact safe_anchorGenBlock o camera sds chars reg f s t a s' hgen

theorem safe_runTasks (o : Oracle) (reg : Registry) (ts : List FrameTaskSpec) :
    SafeTriple (runTasks o reg ts) := by
  induction ts with
  | nil => exact safe_pure ()
  | cons t ts ih =>
    exact safe_bind
      (safe_generateFrameForSingleShot o t.shot t.frameType t.anchorPair
        t.frameDesc t.visChars reg)
      fun _ => ih

theorem safe_generateFramesForSingleCamera (o : Oracle) (camera : Camera)
    (sds : List ShotDescription) (chars : List CharacterInScene)
    (reg : Registry) (prio : List Nat) :
    SafeTriple (generateFramesForSingleCamera o camera sds chars reg prio) := by
  unfold generateFramesForSingleCamera
  refine safe_bind (safe_anchorPhase o camera sds chars reg) fun _ => ?_
  refine safe_bind (safe_ofOption _) fun tasks => ?_
  exact safe_bind (safe_runTasks o reg tasks.1) fun _ => safe_runTasks o reg tasks.2

/-- C5: the two frame-scheduler operations keep the artifact-before-signal
invariant — in every completed run, every (shot, frame-type) coordination
signal in the trace fires at a moment when the corresponding frame
artifact is already in the store (pre-existing, or saved earlier in the
same trace). -/
theorem frame_signal_only_after_artifact :
    (∀ (o : Oracle) (camera : Camera) (sds : List ShotDescription)
       (chars : List CharacterInScene) (reg : Registry) (prio : List Nat)
       (s : PState) (t : List Act) (u : Unit) (s' : PState),
       generateFramesForSingleCamera o camera sds chars reg prio s = some (t, u, s') →
       signalsSafe s.fs t = true) ∧
    (∀ (o : Oracle) (shot : Nat) (ft : FrameType) (anchorPair : FPath × String)
       (frameDesc : String) (visChars : List CharacterInScene) (reg : Registry)
       (s : PState) (t : List Act) (fp : FPath) (s' : PState),
       generateFrameForSingleShot o shot ft anchorPair frameDesc visChars reg s =
         some (t, fp, s') →
       signalsSafe s.fs t = true) :=
  ⟨fun o camera sds chars reg prio s t u s' h =>
     (safe_generateFramesForSingleCamera o camera sds chars reg prio s t u s' h).1,
   fun o shot ft ap fd vc reg s t fp s' h =>
     (safe_generateFrameForSingleShot o shot ft ap fd vc reg s t fp s' h).1⟩

/-- Witness for C5: the skip branch of a frame task fires shot 1's
first-frame signal with the artifact already present, a signal-safe
trace. -/
theorem frame_signal_only_after_artifact_witness :
    signalsSafe stFrameDone.fs [Act.setEvent (EventKey.frame 1 FrameType.first)] = true :=
  frame_signal_only_after_artifact.2 oracle₀ 1 FrameType.first (FPath.firstFrame 0, "")
    "" [] [] stFrameDone [Act.setEvent (EventKey.frame 1 FrameType.first)]
    (FPath.firstFrame 1)
    { fs := [(FPath.firstFrame 1, Artifact.image "x")],
      events := [EventKey.frame 1 FrameType.first] }
    (by decide)

/-- C6 (failing input): grouping `sdsGroupBug` — camera indices first
appear in order 1, 0 — appends shot 2 (whose `cam_idx` is 1) to the camera
record whose `idx` is 0, because line 477 indexes the camera list
positionally; the resulting camera with `idx = 1` does not contain
shot 2. -/
theorem grouping_appends_to_positional_camera :
    groupShots sdsGroupBug =
      some [{ idx := 1, active_shot_idxs := [0], parent_cam_idx := none,
              parent_shot_idx := none, missing_info := none },
            { idx := 0, active_shot_idxs := [1, 2], parent_cam_idx := none,
              parent_shot_idx := none, missing_info := none }] := by
  decide

theorem passiveRun_pure {α : Type} (a : α) (fs : FS) : PassiveRun (pure a) fs a := by
  intro ev
  exact ⟨[], ev, rfl, rfl⟩

theorem passiveRun_bind {α β : Type} {x : StepM α} {f : α → StepM β} {fs : FS}
    {a : α} {b : β} (hx : PassiveRun x fs a) (hf : PassiveRun (f a) fs b) :
    PassiveRun (x >>= f) fs b := by
  intro ev
  obtain ⟨acts₁, ev₁, hx₁, hp₁⟩ := hx ev
  obtain ⟨acts₂, ev₂, hf₁, hp₂⟩ := hf ev₁
  refine ⟨acts₁ ++ acts₂, ev₂, ?_, ?_⟩
  · show StepM.bind x f _ = _
    unfold StepM.bind
    simp only [hx₁, hf₁]
  · simp only [List.all_append, hp₁, hp₂]
    rfl

theorem passiveRun_getState_bind {β : Type} {f : PState → StepM β} {fs : FS}
    {b : β} (hf : ∀ ev, PassiveRun (f { fs := fs, events := ev }) fs b) :
    PassiveRun (getState >>= f) fs b := by
  intro ev
  obtain ⟨acts, ev', hf₁, hp⟩ := hf ev ev
  refine ⟨acts, ev', ?_, hp⟩
  show StepM.bind getState f _ = _
  unfold StepM.bind getState
  simp only [hf₁, List.nil_append]

theorem passiveRun_ofOption {α : Type} {x : Option α} {a : α} (h : x = some a)
    (fs : FS) : PassiveRun (ofOption x) fs a := by
  intro ev
  subst h
  exact ⟨[], ev, rfl, rfl⟩

theorem passiveRun_fireEvent (k : EventKey) (fs : FS) :
    PassiveRun (fireEvent k) fs () := by
  intro ev
  exact ⟨[Act.setEvent k], k :: ev, rfl, rfl⟩

theorem parsedCharacters_eq_some {fs : FS} {cs : List CharacterInScene}
    (h : parsedCharacters fs = some cs) :
    lookupFs fs FPath.charactersJson = some (Artifact.charactersFile cs) := by
  unfold parsedCharacters at h
  split at h
  · rename_i heq
    injection h with h'
    subst h'
    exact heq
  · cases h

theorem parsedRegistry_eq_some {fs : FS} {r : Registry}
    (h : parsedRegistry fs = some r) :
    lookupFs fs FPath.registryJson = some (Artifact.registryFile r) := by
  unfold parsedRegistry at h
  split at h
  · rename_i heq
    injection h with h'
    subst h'
    exact heq
  · cases h

theorem parsedStoryboard_eq_some {fs : FS} {bs : List ShotBriefDescription}
    (h : parsedStoryboard fs = some bs) :
    lookupFs fs FPath.storyboardJson = some (Artifact.storyboardFile bs) := by
  unfold parsedStoryboard at h
  split at h
  · rename_i heq
    injection h with h'
    subst h'
    exact heq
  · cases h

theorem parsedShotDesc_eq_some {fs : FS} {idx : Nat} {sd : ShotDescription}
    (h : parsedShotDesc fs idx = some sd) :
    lookupFs fs (FPath.shotDescriptionJson idx) = some (Artifact.shotDescFile sd) := by
  unfold parsedShotDesc at h
  split at h
  · rename_i heq
    injection h with h'
    subst h'
    exact heq
  · cases h

theorem parsedTree_eq_some {fs : FS} {tree : List Camera}
    (h : parsedTree fs = some tree) :
    lookupFs fs FPath.cameraTreeJson = some (Artifact.cameraTreeFile tree) := by
  unfold parsedTree at h
  split at h
  · rename_i heq
    injection h with h'
    subst h'
    exact heq
  · cases h

theorem passive_extractCharacters (o : Oracle) (script : String) {fs : FS}
    {cs : List CharacterInScene} (h : parsedCharacters fs = some cs) :
    PassiveRun (extractCharacters o script) fs cs := by
  unfold extractCharacters
  apply passiveRun_getState_bind
  intro ev
  rw [parsedCharacters_eq_some h]
  exact passiveRun_pure cs fs

theorem passive_designStoryboard (o : Oracle) (script userRequirement : String)
    {fs : FS} {bs : List ShotBriefDescription} (h : parsedStoryboard fs = some bs) :
    PassiveRun (designStoryboard o script userRequirement) fs bs := by
  unfold designStoryboard
  apply passiveRun_getState_bind
  intro ev
  rw [parsedStoryboard_eq_some h]
  exact passiveRun_pure bs fs

theorem passive_decomposeSingleShot (o : Oracle) (b : ShotBriefDescription)
    {fs : FS} {sd : ShotDescription} (h : parsedShotDesc fs b.idx = some sd) :
    PassiveRun (decomposeSingleShot o b) fs sd := by
  unfold decomposeSingleShot
  apply passiveRun_getState_bind
  intro ev
  rw [parsedShotDesc_eq_some h]
  exact passiveRun_bind (passiveRun_pure sd fs)
    (passiveRun_bind (passiveRun_fireEvent _ fs) (passiveRun_pure sd fs))

theorem passive_decomposeAll (o : Oracle) {fs : FS} (bs : List ShotBriefDescription)
    (h : ∀ b ∈ bs, (parsedShotDesc fs b.idx).isSome = true) :
    PassiveRun (decomposeAll o bs) fs
      (bs.filterMap fun b => parsedShotDesc fs b.idx) := by
  induction bs with
  | nil => exact passiveRun_pure [] fs
  | cons b bs ih =>
    obtain ⟨sd, hsd⟩ := Option.isSome_iff_exists.mp (h b (List.mem_cons_self _ _))
    have hlist : ((b :: bs).filterMap fun b => parsedShotDesc fs b.idx) =
        sd :: bs.filterMap fun b => parsedShotDesc fs b.idx := by
      simp [List.filterMap_cons, hsd]
    rw [hlist]
    exact passiveRun_bind (passive_decomposeSingleShot o b hsd)
      (passiveRun_bind (ih fun b' hb' => h b' (List.mem_cons_of_mem _ hb'))
        (passiveRun_pure _ fs))

theorem passive_constructCameraTree (o : Oracle) (sds : List ShotDescription)
    {fs : FS} {tree : List Camera} (h : parsedTree fs = some tree) :
    PassiveRun (constructCameraTree o sds) fs tree := by
  unfold constructCameraTree
  apply passiveRun_getState_bind
  intro ev
  rw [parsedTree_eq_some h]
  exact passiveRun_pure tree fs

theorem passive_generateFrameForSingleShot_skip (o : Oracle) (shot : Nat)
    (ft : FrameType) (anchorPair : FPath × String) (frameDesc : String)
    (visChars : List CharacterInScene) (reg : Registry) {fs : FS}
    (h : existsFs fs (framePath shot ft) = true) :
    PassiveRun (generateFrameForSingleShot o shot ft anchorPair frameDesc visChars reg)
      fs (framePath shot ft) := by
  intro ev
  refine ⟨[Act.setEvent (EventKey.frame shot ft)], EventKey.frame shot ft :: ev, ?_, rfl⟩
  simp [generateFrameForSingleShot, StepM.bind_apply, getState_apply, h, StepM.pure_apply,
    instMonadStepM, StepM.pure, StepM.bind, fireEvent]

theorem passive_runTasks (o : Oracle) (reg : Registry) {fs : FS}
    (ts : List FrameTaskSpec)
    (h : ∀ t ∈ ts, existsFs fs (framePath t.shot t.frameType) = true) :
    PassiveRun (runTasks o reg ts) fs () := by
  induction ts with
  | nil => exact passiveRun_pure () fs
  | cons t ts ih =>
    exact passiveRun_bind
      (passive_generateFrameForSingleShot_skip o t.shot t.frameType t.anchorPair
        t.frameDesc t.visChars reg (h t (List.mem_cons_self _ _)))
      (ih fun t' ht' => h t' (List.mem_cons_of_mem _ ht'))

theorem passive_anchorPhase (o : Oracle) (camera : Camera)
    (sds : List ShotDescription) (chars : List CharacterInScene) (reg : Registry)
    {fs : FS} {f : Nat} (hhead : camera.active_shot_idxs.head? = some f)
    (hex : existsFs fs (FPath.firstFrame f) = true) :
    PassiveRun (anchorPhase o camera sds chars reg) fs () := by
  intro ev
  refine ⟨[Act.setEvent (EventKey.frame f FrameType.first)],
    EventKey.frame f FrameType.first :: ev, ?_, rfl⟩
  simp [anchorPhase, StepM.bind_apply, getState_apply, instMonadStepM, StepM.pure,
    StepM.bind, ofOption, hhead, hex, fireEvent]

theorem passive_generateFramesForSingleCamera (o : Oracle) (camera : Camera)
    (sds : List ShotDescription) (chars : List CharacterInScene) (reg : Registry)
    (prio : List Nat) {fs : FS}
    (h : readyCamera fs sds chars prio camera = true) :
    PassiveRun (generateFramesForSingleCamera o camera sds chars reg prio) fs () := by
  unfold readyCamera at h
  cases hhead : camera.active_shot_idxs.head? with
  | none => rw [hhead] at h; cases h
  | some f =>
    rw [hhead] at h
    rw [Bool.and_eq_true] at h
    obtain ⟨hex, hb⟩ := h
    cases hbuild : buildFanoutTasks camera sds chars prio with
    | none => rw [hbuild] at hb; cases hb
    | some pn =>
      rw [hbuild] at hb
      obtain ⟨p, n⟩ := pn
      have hall := List.all_eq_true.mp hb
      unfold generateFramesForSingleCamera
      refine passiveRun_bind (passive_anchorPhase o camera sds chars reg hhead hex) ?_
      refine passiveRun_bind (passiveRun_ofOption hbuild fs) ?_
      exact passiveRun_bind
        (passive_runTasks o reg p fun t ht => hall t (List.mem_append_left _ ht))
        (passive_runTasks o reg n fun t ht => hall t (List.mem_append_right _ ht))

theorem passive_runCameraTasks (o : Oracle) (sds : List ShotDescription)
    (chars : List CharacterInScene) (reg : Registry) (prio : List Nat) {fs : FS}
    (tree : List Camera)
    (h : ∀ cam ∈ tree, readyCamera fs sds chars prio cam = true) :
    PassiveRun (runCameraTasks o sds chars reg prio tree) fs () := by
  induction tree with
  | nil => exact passiveRun_pure () fs
  | cons cam tree ih =>
    exact passiveRun_bind
      (passive_generateFramesForSingleCamera o cam sds chars reg prio
        (h cam (List.mem_cons_self _ _)))
      (ih fun cam' hc' => h cam' (List.mem_cons_of_mem _ hc'))

theorem passive_generateVideoForSingleShot_skip (o : Oracle)
    (sd : ShotDescription) {fs : FS}
    (h : existsFs fs (FPath.shotVideo sd.idx) = true) :
    PassiveRun (generateVideoForSingleShot o sd) fs () := by
  intro ev
  refine ⟨[], ev, ?_, rfl⟩
  simp [generateVideoForSingleShot, StepM.bind_apply, getState_apply, h, StepM.pure_apply,
    instMonadStepM, StepM.pure, StepM.bind]

theorem passive_runVideoTasks (o : Oracle) {fs : FS} (sds : List ShotDescription)
    (h : ∀ sd ∈ sds, existsFs fs (FPath.shotVideo sd.idx) = true) :
    PassiveRun (runVideoTasks o sds) fs () := by
  induction sds with
  | nil => exact passiveRun_pure () fs
  | cons sd sds ih =>
    exact passiveRun_bind
      (passive_generateVideoForSingleShot_skip o sd (h sd (List.mem_cons_self _ _)))
      (ih fun sd' hs' => h sd' (List.mem_cons_of_mem _ hs'))

theorem passive_concatStep (sds : List ShotDescription) {fs : FS}
    (h : existsFs fs FPath.finalVideo = true) :
    PassiveRun (concatStep sds) fs FPath.finalVideo := by
  intro ev
  refine ⟨[], ev, ?_, rfl⟩
  simp [concatStep, StepM.bind_apply, getState_apply, h, StepM.pure_apply,
    instMonadStepM, StepM.pure, StepM.bind]

/-- C4: on a working directory that already contains every artifact a run
would produce, the full pipeline completes, returns the final-video path,
performs zero generation calls, writes nothing — so every persisted JSON
artifact stays byte-identical (the filesystem is returned unchanged). -/
theorem second_run_zero_calls_and_byte_identical (o : Oracle)
    (script userRequirement style : String) (s : PState)
    (h : secondRunReady s.fs = true) :
    ∃ acts ev', pipelineCall o script userRequirement style s =
        some (acts, FPath.finalVideo, { fs := s.fs, events := ev' }) ∧
      acts.all passiveAct = true := by
  obtain ⟨fs, ev⟩ := s
  unfold secondRunReady at h
  cases hchars : parsedCharacters fs with
  | none => simp only [hchars] at h; exact Bool.noConfusion h
  | some chars =>
  cases hreg : parsedRegistry fs with
  | none => simp only [hchars, hreg] at h; exact Bool.noConfusion h
  | some reg =>
  cases hstory : parsedStoryboard fs with
  | none => simp only [hchars, hreg, hstory] at h; exact Bool.noConfusion h
  | some bs =>
  cases htreep : parsedTree fs with
  | none => simp only [hchars, hreg, hstory, htreep] at h; exact Bool.noConfusion h
  | some tree =>
  simp only [hchars, hreg, hstory, htreep] at h
  rw [Bool.and_eq_true] at h
  obtain ⟨h, hfinal⟩ := h
  rw [Bool.and_eq_true] at h
  obtain ⟨h, hvids⟩ := h
  rw [Bool.and_eq_true] at h
  obtain ⟨hbriefs, htree⟩ := h
  have hchain : PassiveRun (pipelineCall o script userRequirement style) fs
      FPath.finalVideo := by
    unfold pipelineCall
    refine passiveRun_bind (passive_extractCharacters o script hchars) ?_
    refine passiveRun_getState_bind ?_
    intro ev₀
    rw [parsedRegistry_eq_some hreg]
    refine passiveRun_bind (passiveRun_pure reg fs) ?_
    refine passiveRun_bind (passive_designStoryboard o script userRequirement hstory) ?_
    refine passiveRun_bind (passive_decomposeAll o bs (List.all_eq_true.mp hbriefs)) ?_
    refine passiveRun_bind (passive_constructCameraTree o _ htreep) ?_
    dsimp only
    refine passiveRun_bind
      (passive_runCameraTasks o _ chars reg (priorityShotIdxs tree) tree
        (List.all_eq_true.mp htree)) ?_
    refine passiveRun_bind (passive_runVideoTasks o _ (List.all_eq_true.mp hvids)) ?_
    exact passive_concatStep _ hfinal
  obtain ⟨acts, ev', heq, hp⟩ := hchain ev
  exact ⟨acts, ev', heq, hp⟩

/-- Witness for C4: a complete one-shot working directory yields a passive
second run. -/
theorem second_run_zero_calls_and_byte_identical_witness :
    ∃ acts ev', pipelineCall oracle₀ "s" "u" "st" stSecondRun =
        some (acts, FPath.finalVideo, { fs := stSecondRun.fs, events := ev' }) ∧
      acts.all passiveAct = true :=
  second_run_zero_calls_and_byte_identical oracle₀ "s" "u" "st" stSecondRun (by decide)

end ViMax
